import Mathlib

/-!
Verification of the github-delivery-visibility ingestion pipeline.

This file shallowly embeds the data model and the operations of the
repository's core modules — models.py, cache.py, embeddings.py,
collector.py and bigquery_loader.py — as executable Lean definitions and
proves (or refutes) the specification's testable properties about them.

Modelling conventions:
* Python datetimes are epoch naturals; `isoformat` / `fromisoformat` are
  modelled by a decimal render / parse pair (an injective encoding with a
  partial inverse, mirroring that ISO strings round-trip and that parsing
  a malformed string raises ValueError while parsing a non-string raises
  TypeError).
* Embedding vectors are lists of integers (the pipeline never computes on
  the float components, it only moves them).
* JSON values are a small inductive; Python's dynamic failures (KeyError,
  ValueError, TypeError, OSError, json.JSONDecodeError) are an explicit
  error type threaded through Except.
* Network and warehouse side effects are explicit state passing; the
  wall clock is a parameter.
-/

namespace GithubDelivery

/-! ### models.py: core data model -/

/-- Pull request state, models.py PRState. -/
inductive PRState
  | OPEN
  | CLOSED
  | MERGED
deriving DecidableEq, Repr

/-- The Python enum's string value. -/
def PRState.value : PRState → String
  | .OPEN => "open"
  | .CLOSED => "closed"
  | .MERGED => "merged"

/-- Review state, models.py ReviewState. -/
inductive ReviewState
  | PENDING
  | APPROVED
  | CHANGES_REQUESTED
  | COMMENTED
  | DISMISSED
deriving DecidableEq, Repr

/-- The Python enum's string value. -/
def ReviewState.value : ReviewState → String
  | .PENDING => "PENDING"
  | .APPROVED => "APPROVED"
  | .CHANGES_REQUESTED => "CHANGES_REQUESTED"
  | .COMMENTED => "COMMENTED"
  | .DISMISSED => "DISMISSED"

/-- models.py User. -/
structure User where
  login : String
  name : Option String
  avatar_url : Option String
  html_url : Option String
deriving DecidableEq, Repr

/-- models.py Label. -/
structure GhLabel where
  name : String
  color : String
  description : Option String
deriving DecidableEq, Repr

/-- models.py FileStat. -/
structure FileStat where
  filename : String
  additions : Nat
  deletions : Nat
  changes : Nat
  status : String
  patch : Option String
deriving DecidableEq, Repr

/-- models.py Review. -/
structure Review where
  id : Nat
  user : User
  state : ReviewState
  submitted_at : Nat
  body : Option String
  html_url : Option String
deriving DecidableEq, Repr

/-- models.py PullRequest. -/
structure PullRequest where
  number : Nat
  title : String
  body : Option String
  state : PRState
  created_at : Nat
  updated_at : Nat
  merged_at : Option Nat
  closed_at : Option Nat
  author : User
  html_url : String
  base_branch : String
  head_branch : String
  labels : List GhLabel
  reviews : List Review
  file_stats : List FileStat
  requested_reviewers : List User
  assignees : List User
  additions : Nat
  deletions : Nat
  changed_files : Nat
  draft : Bool
  mergeable : Option Bool
deriving DecidableEq, Repr

/-! ### Timestamp serialisation

datetime.isoformat / datetime.fromisoformat are Python library functions;
we model them by a decimal encoding of the epoch natural, keeping the two
behaviours the repo code depends on: the encoding round-trips, and
parsing fails (ValueError) on strings outside the encoding's image. -/

/-- Map a decimal digit character back to its value; `none` on any other
character (the parse-failure / ValueError side of fromisoformat). -/
def charToDigit (c : Char) : Option Nat :=
  if '0' ≤ c ∧ c ≤ '9' then some (c.toNat - '0'.toNat) else none

/-- Render an epoch timestamp, modelling datetime.isoformat.  The
leading marker character keeps the rendering nonempty (a real ISO string
never is), which matters to the truthiness guards in _dict_to_pr. -/
def dtToIso (n : Nat) : String :=
  String.mk ('T' :: ((Nat.digits 10 n).map Nat.digitChar).reverse)

/-- Parse a rendered timestamp, modelling datetime.fromisoformat: `none`
models the ValueError raised on a malformed string. -/
def isoToDt (s : String) : Option Nat :=
  match s.data with
  | 'T' :: rest => (rest.mapM charToDigit).map (fun ds => Nat.ofDigits 10 ds.reverse)
  | _ => none

theorem charToDigit_digitChar {d : Nat} (h : d < 10) :
    charToDigit (Nat.digitChar d) = some d := by
  interval_cases d <;> decide

theorem mapM_charToDigit_digits (l : List Nat) (h : ∀ d ∈ l, d < 10) :
    (l.map Nat.digitChar).mapM charToDigit = some l := by
  induction l with
  | nil => rfl
  | cons d l ih =>
    simp only [List.map_cons, List.mapM_cons]
    rw [charToDigit_digitChar (h d (by simp)), ih (fun x hx => h x (by simp [hx]))]
    rfl

/-- The timestamp encoding round-trips. -/
theorem isoToDt_dtToIso (n : Nat) : isoToDt (dtToIso n) = some n := by
  unfold isoToDt dtToIso
  simp only [String.data]
  rw [← List.map_reverse, mapM_charToDigit_digits]
  · simp [Nat.ofDigits_digits]
  · intro d hd
    exact Nat.digits_lt_base (by norm_num) (List.mem_reverse.mp hd)

/-- A rendered timestamp is never the empty string. -/
theorem dtToIso_ne_empty (n : Nat) : dtToIso n ≠ "" := by
  intro h
  have h2 := congrArg String.data h
  simp [dtToIso] at h2

/-! ### cache.py: JSON model and PR (de)serialisation

The cache stores one JSON document per PR.  We model JSON values as a
small inductive and the Python runtime errors that cache.py either
catches (KeyError, ValueError, JSONDecodeError) or lets escape
(TypeError, AttributeError, OSError) as an explicit error type. -/

/-- A JSON value (numbers restricted to naturals, which covers every
value the serialiser emits). -/
inductive Json
  | null
  | bool (b : Bool)
  | num (n : Nat)
  | str (s : String)
  | arr (items : List Json)
  | obj (fields : List (String × Json))

/-- The Python exceptions relevant to cache.py. get_pr catches keyError,
valueError and jsonDecodeError; typeError, attrError and osError escape. -/
inductive PyErr
  | keyError
  | valueError
  | typeError
  | attrError
  | osError
deriving DecidableEq, Repr

/-- Python `data[k]` on a JSON value: KeyError when the key is absent
from a dict, TypeError when the value is not a dict at all. -/
def Json.getItem (j : Json) (k : String) : Except PyErr Json :=
  match j with
  | .obj fields =>
    match fields.lookup k with
    | some v => .ok v
    | none => .error .keyError
  | _ => .error .typeError

/-- Python `data.get(k)`: `none` when absent; AttributeError when the
receiver is not a dict. -/
def Json.dictGet (j : Json) (k : String) : Except PyErr (Option Json) :=
  match j with
  | .obj fields => .ok (fields.lookup k)
  | _ => .error .attrError

/-- Read a JSON value as a string (the typed fields of the model; a
non-string here is a shape error). -/
def Json.asStr : Json → Except PyErr String
  | .str s => .ok s
  | _ => .error .typeError

/-- Read a JSON value as a natural number. -/
def Json.asNum : Json → Except PyErr Nat
  | .num n => .ok n
  | _ => .error .typeError

/-- Read a JSON value as a boolean. -/
def Json.asBool : Json → Except PyErr Bool
  | .bool b => .ok b
  | _ => .error .typeError

/-- Read a JSON value as an optional string (null ↦ none). -/
def Json.asOptStr : Json → Except PyErr (Option String)
  | .null => .ok none
  | .str s => .ok (some s)
  | _ => .error .typeError

/-- Read a JSON value as an optional boolean (null ↦ none). -/
def Json.asOptBool : Json → Except PyErr (Option Bool)
  | .null => .ok none
  | .bool b => .ok (some b)
  | _ => .error .typeError

/-- Iterate a JSON value as a list: TypeError on non-iterable values
(dict and string iteration are idealised to the same shape error — on
the repo's own documents only arrays appear in these positions). -/
def Json.asList : Json → Except PyErr (List Json)
  | .arr items => .ok items
  | _ => .error .typeError

/-- Python truthiness of a JSON value, used by the
`if data[&quot;merged_at&quot;]` guards in _dict_to_pr. -/
def Json.truthy : Json → Bool
  | .null => false
  | .bool b => b
  | .num n => n != 0
  | .str s => s != ""
  | .arr items => !items.isEmpty
  | .obj fields => !fields.isEmpty

/-- datetime.fromisoformat applied to a JSON value: TypeError on a
non-string, ValueError on a string that does not parse. -/
def Json.asTimestamp (j : Json) : Except PyErr Nat :=
  match j with
  | .str s =>
    match isoToDt s with
    | some n => .ok n
    | none => .error .valueError
  | _ => .error .typeError

/-- An optional timestamp via the code's truthiness guard:
`fromisoformat(data[k]) if data[k] else None`. -/
def Json.asTruthyTimestamp (j : Json) : Except PyErr (Option Nat) :=
  if j.truthy then (j.asTimestamp).map some else .ok none

/-- Serialise an optional string field (None becomes JSON null, as
json.dump does). -/
def jsonOfOptStr : Option String → Json
  | some s => .str s
  | none => .null

/-- Serialise an optional boolean field. -/
def jsonOfOptBool : Option Bool → Json
  | some b => .bool b
  | none => .null

/-- Serialise the `isoformat() if x else None` pattern of _pr_to_dict. -/
def jsonOfOptDt : Option Nat → Json
  | some t => .str (dtToIso t)
  | none => .null

/-- Serialise a User the way _pr_to_dict does (inline dicts). -/
def userToDict (u : User) : Json :=
  .obj [("login", .str u.login),
        ("name", jsonOfOptStr u.name),
        ("avatar_url", jsonOfOptStr u.avatar_url),
        ("html_url", jsonOfOptStr u.html_url)]

/-- Serialise a label entry of _pr_to_dict. -/
def labelToDict (l : GhLabel) : Json :=
  .obj [("name", .str l.name),
        ("color", .str l.color),
        ("description", jsonOfOptStr l.description)]

/-- Serialise a review entry of _pr_to_dict. -/
def reviewToDict (r : Review) : Json :=
  .obj [("id", .num r.id),
        ("user", userToDict r.user),
        ("state", .str r.state.value),
        ("submitted_at", .str (dtToIso r.submitted_at)),
        ("body", jsonOfOptStr r.body),
        ("html_url", jsonOfOptStr r.html_url)]

/-- Serialise a file_stats entry of _pr_to_dict. -/
def fileStatToDict (fs : FileStat) : Json :=
  .obj [("filename", .str fs.filename),
        ("additions", .num fs.additions),
        ("deletions", .num fs.deletions),
        ("changes", .num fs.changes),
        ("status", .str fs.status),
        ("patch", jsonOfOptStr fs.patch)]

/-- PRCache._pr_to_dict: the JSON document written to the cache file.
`cachedAt` is the `datetime.now()` bookkeeping value. -/
def prToDict (pr : PullRequest) (cachedAt : Nat) : Json :=
  .obj [("number", .num pr.number),
        ("title", .str pr.title),
        ("body", jsonOfOptStr pr.body),
        ("state", .str pr.state.value),
        ("created_at", .str (dtToIso pr.created_at)),
        ("updated_at", .str (dtToIso pr.updated_at)),
        ("merged_at", jsonOfOptDt pr.merged_at),
        ("closed_at", jsonOfOptDt pr.closed_at),
        ("author", userToDict pr.author),
        ("html_url", .str pr.html_url),
        ("base_branch", .str pr.base_branch),
        ("head_branch", .str pr.head_branch),
        ("labels", .arr (pr.labels.map labelToDict)),
        ("reviews", .arr (pr.reviews.map reviewToDict)),
        ("file_stats", .arr (pr.file_stats.map fileStatToDict)),
        ("requested_reviewers", .arr (pr.requested_reviewers.map userToDict)),
        ("assignees", .arr (pr.assignees.map userToDict)),
        ("additions", .num pr.additions),
        ("deletions", .num pr.deletions),
        ("changed_files", .num pr.changed_files),
        ("draft", .bool pr.draft),
        ("mergeable", jsonOfOptBool pr.mergeable),
        ("cached_at", .str (dtToIso cachedAt))]

/-- Parse the state string through the PRState enum constructor; an
unknown value raises ValueError, a non-string also fails the lookup. -/
def parsePRState (j : Json) : Except PyErr PRState :=
  match j with
  | .str "open" => .ok .OPEN
  | .str "closed" => .ok .CLOSED
  | .str "merged" => .ok .MERGED
  | _ => .error .valueError

/-- Parse the review state string through the ReviewState enum. -/
def parseReviewState (j : Json) : Except PyErr ReviewState :=
  match j with
  | .str "PENDING" => .ok .PENDING
  | .str "APPROVED" => .ok .APPROVED
  | .str "CHANGES_REQUESTED" => .ok .CHANGES_REQUESTED
  | .str "COMMENTED" => .ok .COMMENTED
  | .str "DISMISSED" => .ok .DISMISSED
  | _ => .error .valueError

/-- Reconstruct a User the way _dict_to_pr does: `login` is a required
key, the rest go through `.get`. -/
def dictToUser (j : Json) : Except PyErr User := do
  let login ← (← j.getItem "login").asStr
  let name ← (match (← j.dictGet "name") with
    | some v => v.asOptStr
    | none => .ok none)
  let avatarUrl ← (match (← j.dictGet "avatar_url") with
    | some v => v.asOptStr
    | none => .ok none)
  let htmlUrl ← (match (← j.dictGet "html_url") with
    | some v => v.asOptStr
    | none => .ok none)
  return { login := login, name := name, avatar_url := avatarUrl, html_url := htmlUrl }

/-- Reconstruct a label: `name` and `color` required, `description`
through `.get`. -/
def dictToLabel (j : Json) : Except PyErr GhLabel := do
  let name ← (← j.getItem "name").asStr
  let color ← (← j.getItem "color").asStr
  let description ← (match (← j.dictGet "description") with
    | some v => v.asOptStr
    | none => .ok none)
  return { name := name, color := color, description := description }

/-- Reconstruct a review entry of _dict_to_pr. -/
def dictToReview (j : Json) : Except PyErr Review := do
  let id ← (← j.getItem "id").asNum
  let user ← dictToUser (← j.getItem "user")
  let state ← parseReviewState (← j.getItem "state")
  let submittedAt ← (← j.getItem "submitted_at").asTimestamp
  let body ← (match (← j.dictGet "body") with
    | some v => v.asOptStr
    | none => .ok none)
  let htmlUrl ← (match (← j.dictGet "html_url") with
    | some v => v.asOptStr
    | none => .ok none)
  return { id := id, user := user, state := state, submitted_at := submittedAt,
           body := body, html_url := htmlUrl }

/-- Reconstruct a file_stats entry of _dict_to_pr. -/
def dictToFileStat (j : Json) : Except PyErr FileStat := do
  let filename ← (← j.getItem "filename").asStr
  let additions ← (← j.getItem "additions").asNum
  let deletions ← (← j.getItem "deletions").asNum
  let changes ← (← j.getItem "changes").asNum
  let status ← (← j.getItem "status").asStr
  let patch ← (match (← j.dictGet "patch") with
    | some v => v.asOptStr
    | none => .ok none)
  return { filename := filename, additions := additions, deletions := deletions,
           changes := changes, status := status, patch := patch }

/-- PRCache._dict_to_pr: rebuild a PullRequest from the cached JSON
document, in the source's evaluation order (author, labels, reviews,
file_stats, requested_reviewers, assignees, then the flat fields). -/
def dictToPr (data : Json) : Except PyErr PullRequest := do
  let author ← dictToUser (← data.getItem "author")
  let labels ← (← (← data.getItem "labels").asList).mapM dictToLabel
  let reviews ← (← (← data.getItem "reviews").asList).mapM dictToReview
  let fileStats ← (← (← data.getItem "file_stats").asList).mapM dictToFileStat
  let requestedReviewers ← (← (← data.getItem "requested_reviewers").asList).mapM dictToUser
  let assignees ← (← (← data.getItem "assignees").asList).mapM dictToUser
  let number ← (← data.getItem "number").asNum
  let title ← (← data.getItem "title").asStr
  let body ← (← data.getItem "body").asOptStr
  let state ← parsePRState (← data.getItem "state")
  let createdAt ← (← data.getItem "created_at").asTimestamp
  let updatedAt ← (← data.getItem "updated_at").asTimestamp
  let mergedAt ← (← data.getItem "merged_at").asTruthyTimestamp
  let closedAt ← (← data.getItem "closed_at").asTruthyTimestamp
  let htmlUrl ← (← data.getItem "html_url").asStr
  let baseBranch ← (← data.getItem "base_branch").asStr
  let headBranch ← (← data.getItem "head_branch").asStr
  let additions ← (← data.getItem "additions").asNum
  let deletions ← (← data.getItem "deletions").asNum
  let changedFiles ← (← data.getItem "changed_files").asNum
  let draft ← (← data.getItem "draft").asBool
  let mergeable ← (match (← data.dictGet "mergeable") with
    | some v => v.asOptBool
    | none => .ok none)
  return { number := number, title := title, body := body, state := state,
           created_at := createdAt, updated_at := updatedAt,
           merged_at := mergedAt, closed_at := closedAt, author := author,
           html_url := htmlUrl, base_branch := baseBranch, head_branch := headBranch,
           labels := labels, reviews := reviews, file_stats := fileStats,
           requested_reviewers := requestedReviewers, assignees := assignees,
           additions := additions, deletions := deletions,
           changed_files := changedFiles, draft := draft, mergeable := mergeable }

/-- The observable condition of a cache file on disk: absent, present
but unreadable (open raises OSError), readable but not valid JSON
(json.load raises JSONDecodeError), or a parsed JSON document. -/
inductive CacheFileState
  | missing
  | unreadable
  | notJson
  | json (j : Json)

/-- PRCache.get_pr on a file in the given state.  `.ok none` is a cache
miss; `.error e` models an exception escaping to the caller.  The code
returns None when the file is absent and catches only JSONDecodeError,
KeyError and ValueError around json.load / _dict_to_pr. -/
def getPr : CacheFileState → Except PyErr (Option PullRequest)
  | .missing => .ok none
  | .unreadable => .error .osError
  | .notJson => .ok none
  | .json j =>
    match dictToPr j with
    | .ok pr => .ok (some pr)
    | .error .keyError => .ok none
    | .error .valueError => .ok none
    | .error e => .error e

/-- PRCache.store_pr followed by a read of the same file: the file then
holds the _pr_to_dict document. -/
def storedFileState (pr : PullRequest) (cachedAt : Nat) : CacheFileState :=
  .json (prToDict pr cachedAt)

/-! ### Round-trip lemmas for the cache serialisation -/

theorem exceptBind_ok {e a b : Type} (x : a) (f : a → Except e b) :
    (Except.ok x : Except e a) >>= f = f x := rfl

theorem exceptMap_ok {e a b : Type} (f : a → b) (x : a) :
    Except.map f (Except.ok x : Except e a) = .ok (f x) := rfl

theorem asOptStr_jsonOfOptStr (o : Option String) : (jsonOfOptStr o).asOptStr = .ok o := by
  cases o <;> rfl

theorem asOptBool_jsonOfOptBool (o : Option Bool) : (jsonOfOptBool o).asOptBool = .ok o := by
  cases o <;> rfl

theorem asTimestamp_dtToIso (t : Nat) : (Json.str (dtToIso t)).asTimestamp = .ok t := by
  simp [Json.asTimestamp, isoToDt_dtToIso]

theorem asTruthyTimestamp_jsonOfOptDt (o : Option Nat) :
    (jsonOfOptDt o).asTruthyTimestamp = .ok o := by
  cases o with
  | none => rfl
  | some t =>
    simp [jsonOfOptDt, Json.asTruthyTimestamp, Json.truthy, asTimestamp_dtToIso,
      exceptMap_ok, bne_iff_ne, dtToIso_ne_empty t]

theorem parsePRState_value (s : PRState) : parsePRState (.str s.value) = .ok s := by
  cases s <;> rfl

theorem parseReviewState_value (s : ReviewState) :
    parseReviewState (.str s.value) = .ok s := by
  cases s <;> rfl

theorem dictToUser_userToDict (u : User) : dictToUser (userToDict u) = .ok u := by
  obtain ⟨login, name, av, hu⟩ := u
  cases name <;> cases av <;> cases hu <;> rfl

theorem dictToLabel_labelToDict (l : GhLabel) : dictToLabel (labelToDict l) = .ok l := by
  obtain ⟨name, color, d⟩ := l
  cases d <;> rfl

theorem dictToFileStat_fileStatToDict (fs : FileStat) :
    dictToFileStat (fileStatToDict fs) = .ok fs := by
  obtain ⟨f, a, d, c, s, p⟩ := fs
  cases p <;> rfl

theorem dictToReview_reviewToDict (r : Review) :
    dictToReview (reviewToDict r) = .ok r := by
  obtain ⟨id, user, state, sub, body, hu⟩ := r
  simp [dictToReview, reviewToDict, Json.getItem, Json.dictGet, Json.asNum,
    List.lookup, exceptBind_ok, asOptStr_jsonOfOptStr, dictToUser_userToDict,
    parseReviewState_value, asTimestamp_dtToIso]

theorem mapM_loop_map_ok {α β : Type} (dec : β → Except PyErr α) (enc : α → β)
    (h : ∀ x, dec (enc x) = .ok x) (l : List α) (acc : List α) :
    List.mapM.loop dec (l.map enc) acc = .ok (acc.reverse ++ l) := by
  induction l generalizing acc with
  | nil =>
    show pure acc.reverse = Except.ok (acc.reverse ++ [])
    simp [pure, Except.pure]
  | cons x xs ih =>
    simp only [List.map_cons, List.mapM.loop, h, exceptBind_ok, ih, List.reverse_cons,
      List.append_assoc, List.cons_append, List.nil_append]

theorem mapM_map_ok {α β : Type} (dec : β → Except PyErr α) (enc : α → β)
    (h : ∀ x, dec (enc x) = .ok x) (l : List α) : (l.map enc).mapM dec = .ok l := by
  rw [List.mapM, mapM_loop_map_ok dec enc h l]
  rfl

/-- Full serialisation round trip: _dict_to_pr inverts _pr_to_dict. -/
theorem dictToPr_prToDict (pr : PullRequest) (t : Nat) :
    dictToPr (prToDict pr t) = .ok pr := by
  obtain ⟨number, title, body, state, ca, ua, ma, cla, author, hu, bb, hb,
    labels, reviews, fstats, rr, asg, add, del, cf, draft, mrg⟩ := pr
  simp [dictToPr, prToDict, Json.getItem, Json.dictGet, Json.asNum, Json.asStr,
    Json.asBool, Json.asList, List.lookup, exceptBind_ok, exceptMap_ok,
    asOptStr_jsonOfOptStr, asOptBool_jsonOfOptBool, asTruthyTimestamp_jsonOfOptDt,
    dictToUser_userToDict, parsePRState_value, asTimestamp_dtToIso,
    mapM_loop_map_ok dictToLabel labelToDict dictToLabel_labelToDict,
    mapM_loop_map_ok dictToReview reviewToDict dictToReview_reviewToDict,
    mapM_loop_map_ok dictToFileStat fileStatToDict dictToFileStat_fileStatToDict,
    mapM_loop_map_ok dictToUser userToDict dictToUser_userToDict]

/-! ### embeddings.py: batched embedding generation

The Vertex backend is a parameter: one call takes the batch's valid
texts and either returns one vector per text or fails (the exception
caught by generate_batch_embeddings).  Vector components are opaque. -/

/-- An embedding vector. -/
abbrev Vec := List Int

/-- The embedding backend: `none` models a raised exception for the
whole call. -/
def EmbedBackend : Type := List String → Option (List Vec)

/-- The validity test `if text and text.strip()` of
generate_batch_embeddings (nonempty and not whitespace-only). -/
def isValidText (t : String) : Bool := t != "" && t.trim != ""

/-- Write each returned embedding at its valid index:
the zip(valid_indices, response.embeddings) assignment loop. -/
def fillAt (init : List (Option Vec)) (pairs : List (Nat × Vec)) : List (Option Vec) :=
  pairs.foldl (fun acc p => acc.set p.1 (some p.2)) init

/-- Process one batch of generate_batch_embeddings: filter valid texts,
call the backend once if any, place results at their original indices,
and degrade the whole batch to None on a backend failure. -/
def processBatch (backend : EmbedBackend) (batch : List String) : List (Option Vec) :=
  let valid := batch.enum.filter (fun p => isValidText p.2)
  let validTexts := valid.map (fun p => p.2)
  if validTexts.isEmpty then
    List.replicate batch.length none
  else
    match backend validTexts with
    | some embs => fillAt (List.replicate batch.length none) ((valid.map (fun p => p.1)).zip embs)
    | none => List.replicate batch.length none

/-- The backend calls one batch issues (none when the batch has no valid
text — the `else` branch makes no network call). -/
def batchCalls (batch : List String) : List (List String) :=
  let validTexts := (batch.enum.filter (fun p => isValidText p.2)).map (fun p => p.2)
  if validTexts.isEmpty then [] else [validTexts]

/-- The `range(0, len(texts), batch_size)` slicing into batches.  A zero
batch size raises in Python; it is mapped to the empty batch list here
and excluded by hypothesis in the theorems. -/
def toBatches (bs : Nat) (l : List String) : List (List String) :=
  if _h : l.isEmpty || bs == 0 then []
  else l.take bs :: toBatches bs (l.drop bs)
termination_by l.length
decreasing_by
  simp only [Bool.or_eq_true, List.isEmpty_iff, beq_iff_eq] at _h
  push_neg at _h
  have h1 : l.length ≠ 0 := fun hl => _h.1 (List.length_eq_zero.mp hl)
  simp only [List.length_drop]
  omega

/-- EmbeddingGenerator.generate_batch_embeddings: the returned slot
list (one Optional vector per input text). -/
def generateBatchEmbeddings (backend : EmbedBackend) (texts : List String) (bs : Nat) :
    List (Option Vec) :=
  ((toBatches bs texts).map (processBatch backend)).flatten

/-- The backend calls generate_batch_embeddings issues, in order. -/
def generateBatchCalls (texts : List String) (bs : Nat) : List (List String) :=
  ((toBatches bs texts).map batchCalls).flatten

/-! ### collector.py: rate limiting, retries, pagination, fetching -/

/-- The rate-limit gate at the top of _make_request (lines 91-94): with
the tracked remaining budget at most 1 and the tracked reset time still
in the future, sleep until reset plus one second; otherwise proceed at
once.  The returned value is the time at which the request is issued. -/
def rateLimitGate (now remaining reset : Nat) : Nat :=
  if remaining ≤ 1 ∧ now < reset then now + ((reset - now) + 1) else now

/-- What one attempt inside _make_request's retry loop observes. -/
inductive AttemptOutcome
  | ok (d : Nat)
  | http403 (isRateLimited : Bool)
  | http404
  | httpOther (code : Nat)
  | netErr
  | jsonErr
deriving DecidableEq, Repr

/-- The result _make_request surfaces to its caller. -/
inductive MRResult
  | ok (d : Nat)
  | rateLimitError
  | forbidden
  | notFound
  | httpFatal (code : Nat)
  | netFatal
  | jsonFatal
deriving DecidableEq, Repr

/-- The fatal error raised once the final attempt has failed, chosen by
the type of the last exception. -/
def fatalFor : AttemptOutcome → MRResult
  | .httpOther code => .httpFatal code
  | .netErr => .netFatal
  | _ => .jsonFatal

/-- The retry loop of _make_request from a given attempt index: returns
the surfaced result, the number of attempts consumed, and the backoff
waits (2 ** attempt + 1 seconds) performed.  A rate-limited 403 raises
RateLimitError at once; any other 403 and any 404 also raise at once;
retryable outcomes wait and retry while attempt < maxRetries. -/
def makeRequestAux (script : Nat → AttemptOutcome) (maxRetries attempt : Nat) :
    MRResult × Nat × List Nat :=
  match script attempt with
  | .ok d => (.ok d, 1, [])
  | .http403 true => (.rateLimitError, 1, [])
  | .http403 false => (.forbidden, 1, [])
  | .http404 => (.notFound, 1, [])
  | o =>
    if h : attempt < maxRetries then
      let rest := makeRequestAux script maxRetries (attempt + 1)
      (rest.1, rest.2.1 + 1, (2 ^ attempt + 1) :: rest.2.2)
    else
      (fatalFor o, 1, [])
termination_by maxRetries - attempt

/-- GitHubCollector._make_request's retry behaviour, starting at attempt
0 with the default max_retries = 3 unless overridden. -/
def makeRequest (script : Nat → AttemptOutcome) (maxRetries : Nat) :
    MRResult × Nat × List Nat :=
  makeRequestAux script maxRetries 0

/-- One paginated listing loop of _get_all_pages over a source holding
`items`, with page size `pp`: returns the collected items and the number
of page requests issued.  The loop requests successive pages, stops when
a page returns fewer than per_page items, and breaks at the hard
100-page ceiling after incrementing the page counter. -/
def getAllPagesAux (items : List Nat) (pp page : Nat) (acc : List Nat) (reqs : Nat) :
    List Nat × Nat :=
  if ((items.drop ((page - 1) * pp)).take pp).length < pp then
    (acc ++ (items.drop ((page - 1) * pp)).take pp, reqs + 1)
  else if _h : page + 1 > 100 then
    (acc ++ (items.drop ((page - 1) * pp)).take pp, reqs + 1)
  else
    getAllPagesAux items pp (page + 1) (acc ++ (items.drop ((page - 1) * pp)).take pp) (reqs + 1)
termination_by 101 - page

/-- GitHubCollector._get_all_pages (list-shaped responses). -/
def getAllPages (items : List Nat) (pp : Nat) : List Nat × Nat :=
  getAllPagesAux items pp 1 [] 0

/-! ### collector.py: the two fetch paths and their cache interaction

The GitHub listing payload is modelled by the fields
PullRequest.from_github_data reads; enrichment (the files and reviews
calls of _enrich_pull_request) is an opaque function whose invocations
are recorded, which is what the cache read-through property counts. -/

/-- One element of the JSON list the pulls listing endpoint returns,
restricted to the fields from_github_data consumes. -/
structure GhItem where
  number : Nat
  title : String
  body : Option String
  state : String
  created_at : Nat
  updated_at : Nat
  merged_at : Option Nat
  closed_at : Option Nat
  user : User
  html_url : String
  base_ref : String
  head_ref : String
  labels : List GhLabel
  requested_reviewers : List User
  assignees : List User
  additions : Nat
  deletions : Nat
  changed_files : Nat
  draft : Bool
  mergeable : Option Bool
deriving DecidableEq, Repr

/-- PullRequest.from_github_data: state is MERGED when merged_at is set,
CLOSED when the API state is closed, OPEN otherwise; reviews and
file_stats start empty (they come from enrichment). -/
def fromGithubData (it : GhItem) : PullRequest :=
  { number := it.number
    title := it.title
    body := it.body
    state := if it.merged_at.isSome then .MERGED
      else if it.state = "closed" then .CLOSED else .OPEN
    created_at := it.created_at
    updated_at := it.updated_at
    merged_at := it.merged_at
    closed_at := it.closed_at
    author := it.user
    html_url := it.html_url
    base_branch := it.base_ref
    head_branch := it.head_ref
    labels := it.labels
    reviews := []
    file_stats := []
    requested_reviewers := it.requested_reviewers
    assignees := it.assignees
    additions := it.additions
    deletions := it.deletions
    changed_files := it.changed_files
    draft := it.draft
    mergeable := it.mergeable }

/-- The outcome of one fetch pass: the returned PRs, the numbers whose
parents were enriched (one entry per _enrich_pull_request call, in
order), and the cache writes performed (number, record). -/
structure FetchTrace where
  prs : List PullRequest
  enriched : List Nat
  cacheWrites : List (Nat × PullRequest)
deriving DecidableEq, Repr

/-- One iteration of the get_merged_prs loop: skip items not merged or
merged outside [since, until]; use any cache hit as-is (no enrichment,
regardless of the cached state); on a miss, build from the item, enrich
exactly once and store. -/
def mergedStep (cache : Nat → Option PullRequest) (enrich : PullRequest → PullRequest)
    (since untilT : Nat) (acc : FetchTrace) (it : GhItem) : FetchTrace :=
  match it.merged_at with
  | none => acc
  | some m =>
    if m < since ∨ untilT < m then acc
    else
      match cache it.number with
      | some cpr =>
        { acc with prs := acc.prs ++ [cpr] }
      | none =>
        let pr := enrich (fromGithubData it)
        { prs := acc.prs ++ [pr]
          enriched := acc.enriched ++ [it.number]
          cacheWrites := acc.cacheWrites ++ [(it.number, pr)] }

/-- GitHubCollector.get_merged_prs over an already-listed payload. -/
def getMergedPrs (cache : Nat → Option PullRequest) (enrich : PullRequest → PullRequest)
    (items : List GhItem) (since untilT : Nat) : FetchTrace :=
  items.foldl (mergedStep cache enrich since untilT) ⟨[], [], []⟩

/-- One iteration of the get_open_prs loop: a cache hit in the open
state is re-enriched and stored; any other case (miss, or a hit in a
non-open state) builds the record from the item, enriches it once and
stores it. -/
def openStep (cache : Nat → Option PullRequest) (enrich : PullRequest → PullRequest)
    (acc : FetchTrace) (it : GhItem) : FetchTrace :=
  let pr :=
    match cache it.number with
    | some cpr => if cpr.state = .OPEN then enrich cpr else enrich (fromGithubData it)
    | none => enrich (fromGithubData it)
  { prs := acc.prs ++ [pr]
    enriched := acc.enriched ++ [it.number]
    cacheWrites := acc.cacheWrites ++ [(it.number, pr)] }

/-- GitHubCollector.get_open_prs over an already-listed payload (sliced
to `limit`). -/
def getOpenPrs (cache : Nat → Option PullRequest) (enrich : PullRequest → PullRequest)
    (items : List GhItem) (limit : Nat) : FetchTrace :=
  (items.take limit).foldl (openStep cache enrich) ⟨[], [], []⟩

/-! ### bigquery_loader.py: staging rows and the MERGE reconciliation -/

/-- One row of the gkabbz_gh_prs tables (_pr_to_bigquery_row). -/
structure PRRow where
  repo_name : String
  number : Nat
  title : String
  body : Option String
  body_embedding : Vec
  state : String
  author : String
  html_url : String
  created_at : String
  updated_at : String
  merged_at : Option String
  closed_at : Option String
  base_branch : String
  head_branch : String
  additions : Nat
  deletions : Nat
  changed_files : Nat
  draft : Bool
  cached_at : Nat
deriving DecidableEq, Repr

/-- One row of the gkabbz_gh_reviews tables (_load_reviews). -/
structure ReviewRow where
  repo_name : String
  pr_number : Nat
  review_id : Nat
  reviewer : String
  state : String
  body : Option String
  body_embedding : Vec
  submitted_at : String
  html_url : Option String
  cached_at : Nat
deriving DecidableEq, Repr

/-- One row of the gkabbz_gh_files tables (_load_files). -/
structure FileRow where
  repo_name : String
  pr_number : Nat
  filename : String
  additions : Nat
  deletions : Nat
  status : String
  patch : Option String
  patch_embedding : Vec
  patch_truncated : Bool
  cached_at : Nat
deriving DecidableEq, Repr

/-- One row of the gkabbz_gh_labels tables (_load_labels); note it has
no timestamp column. -/
structure LabelRow where
  repo_name : String
  pr_number : Nat
  label_name : String
  label_color : String
  label_description : Option String
deriving DecidableEq, Repr

/-- BigQueryLoader._pr_to_bigquery_row. -/
def prToBigqueryRow (repo : String) (pr : PullRequest) (emb : Option Vec)
    (cachedAt : Nat) : PRRow :=
  { repo_name := repo
    number := pr.number
    title := pr.title
    body := pr.body
    body_embedding := emb.getD []
    state := pr.state.value
    author := pr.author.login
    html_url := pr.html_url
    created_at := dtToIso pr.created_at
    updated_at := dtToIso pr.updated_at
    merged_at := pr.merged_at.map dtToIso
    closed_at := pr.closed_at.map dtToIso
    base_branch := pr.base_branch
    head_branch := pr.head_branch
    additions := pr.additions
    deletions := pr.deletions
    changed_files := pr.changed_files
    draft := pr.draft
    cached_at := cachedAt }

/-- The (pr_number, review) pairs _load_reviews collects across PRs. -/
def reviewPairs (prs : List PullRequest) : List (Nat × Review) :=
  prs.flatMap (fun pr => pr.reviews.map (fun rv => (pr.number, rv)))

/-- The rows _load_reviews builds, zipping pairs with their embeddings. -/
def reviewRowsOf (repo : String) (prs : List PullRequest) (backend : EmbedBackend)
    (cachedAt : Nat) : List ReviewRow :=
  let pairs := reviewPairs prs
  let embs := generateBatchEmbeddings backend (pairs.map (fun p => p.2.body.getD "")) 5
  (pairs.zip embs).map (fun pe =>
    { repo_name := repo
      pr_number := pe.1.1
      review_id := pe.1.2.id
      reviewer := pe.1.2.user.login
      state := pe.1.2.state.value
      body := pe.1.2.body
      body_embedding := pe.2.getD []
      submitted_at := dtToIso pe.1.2.submitted_at
      html_url := pe.1.2.html_url
      cached_at := cachedAt })

/-- The (pr_number, file_stat) pairs _load_files collects across PRs. -/
def filePairs (prs : List PullRequest) : List (Nat × FileStat) :=
  prs.flatMap (fun pr => pr.file_stats.map (fun fs => (pr.number, fs)))

/-- The rows _load_files builds, zipping pairs with patch embeddings. -/
def fileRowsOf (repo : String) (prs : List PullRequest) (backend : EmbedBackend)
    (cachedAt : Nat) : List FileRow :=
  let pairs := filePairs prs
  let embs := generateBatchEmbeddings backend (pairs.map (fun p => p.2.patch.getD "")) 5
  (pairs.zip embs).map (fun pe =>
    { repo_name := repo
      pr_number := pe.1.1
      filename := pe.1.2.filename
      additions := pe.1.2.additions
      deletions := pe.1.2.deletions
      status := pe.1.2.status
      patch := pe.1.2.patch
      patch_embedding := pe.2.getD []
      patch_truncated := false
      cached_at := cachedAt })

/-- The rows _load_labels builds (no embeddings, no timestamp). -/
def labelRowsOf (repo : String) (prs : List PullRequest) : List LabelRow :=
  (prs.flatMap (fun pr => pr.labels.map (fun l => (pr.number, l)))).map (fun pl =>
    { repo_name := repo
      pr_number := pl.1
      label_name := pl.2.name
      label_color := pl.2.color
      label_description := pl.2.description })

/-- The rows _merge_prs builds from the PRs and their embeddings. -/
def prRowsOf (repo : String) (prs : List PullRequest) (backend : EmbedBackend)
    (cachedAt : Nat) : List PRRow :=
  let embs := generateBatchEmbeddings backend (prs.map (fun pr => pr.body.getD "")) 5
  (prs.zip embs).map (fun pe => prToBigqueryRow repo pe.1 pe.2 cachedAt)

/-! ### The staging-to-production MERGE

The MERGE statements of bigquery_loader.py share one shape: restrict the
staging table to the target repository, keep the ROW_NUMBER-1 row per
natural key (ordered by cached_at DESC for PRs, reviews and files, and
by the constant repo_name for labels), then update every non-key column
of matching production rows and insert the rest.  Because the ordering
leaves ties unordered, a window ordering only pins the winner up to
tie-breaking; `canBeRowOne` is the set of admissible winners, and the
executable model resolves ties to the first staged row (one admissible
choice).  The ascending label ordering is obtained by instantiating the
ordering type with the dual order. -/

/-- First-occurrence deduplication of a key list. -/
def firstDedup {κ : Type} [DecidableEq κ] : List κ → List κ
  | [] => []
  | k :: ks => k :: firstDedup (ks.filter (fun x => decide (x ≠ k)))
termination_by l => l.length
decreasing_by
  have := List.length_filter_le (fun x => decide (x ≠ k)) ks
  simp only [List.length_cons]
  omega

section Merge

variable {ρ κ σ : Type} [DecidableEq ρ] [DecidableEq κ] [LinearOrder σ]

/-- The staging rows sharing a natural key (one window partition). -/
def grpOf (key : ρ → κ) (staging : List ρ) (k : κ) : List ρ :=
  staging.filter (fun r => decide (key r = k))

/-- The executable ROW_NUMBER-1 row of a partition under the descending
ordering: the first staged row whose ordering value is maximal. -/
def winnerFor (key : ρ → κ) (ord : ρ → σ) (staging : List ρ) (k : κ) : Option ρ :=
  let g := grpOf key staging k
  g.find? (fun r => g.all (fun r2 => decide (ord r2 ≤ ord r)))

/-- All rows the window may rank first: a row is an admissible winner
exactly when no row of its partition is strictly larger in the ordering
(ties are left unordered by the SQL). -/
def canBeRowOne (key : ρ → κ) (ord : ρ → σ) (staging : List ρ) (r : ρ) : Prop :=
  r ∈ staging ∧ ∀ r2 ∈ staging, key r2 = key r → ord r2 ≤ ord r

/-- The deduplicated staging subquery: one winner per distinct key, in
first-occurrence key order. -/
def dedupWinners (key : ρ → κ) (ord : ρ → σ) (staging : List ρ) : List ρ :=
  (firstDedup (staging.map key)).filterMap (winnerFor key ord staging)

/-- The MERGE application: every production row whose key has a winner
is updated on all non-key columns (hence replaced by the winner, whose
key it shares), and winners matching no production row are inserted. -/
def upsert (key : ρ → κ) (prod ws : List ρ) : List ρ :=
  prod.map (fun t =>
    match ws.find? (fun st => decide (key st = key t)) with
    | some st => st
    | none => t)
  ++ ws.filter (fun st => !(prod.any (fun t => decide (key t = key st))))

/-- One whole reconciliation: filter staging to the repository,
deduplicate, upsert into production. -/
def mergeKind (key : ρ → κ) (ord : ρ → σ) (repoOf : ρ → String) (repo : String)
    (staging prod : List ρ) : List ρ :=
  upsert key prod (dedupWinners key ord (staging.filter (fun r => decide (repoOf r = repo))))

end Merge

/-- Natural key of the prs tables: (repo_name, number). -/
def prKey (r : PRRow) : String × Nat := (r.repo_name, r.number)

/-- Natural key of the reviews tables: (repo_name, review_id). -/
def reviewKey (r : ReviewRow) : String × Nat := (r.repo_name, r.review_id)

/-- Natural key of the files tables: (repo_name, pr_number, filename). -/
def fileKey (r : FileRow) : String × Nat × String := (r.repo_name, r.pr_number, r.filename)

/-- Natural key of the labels tables: (repo_name, pr_number, label_name). -/
def labelKey (r : LabelRow) : String × Nat × String := (r.repo_name, r.pr_number, r.label_name)

/-- The label window ordering, ORDER BY repo_name ascending: the dual
order turns the descending model into the ascending SQL ordering.  It is
constant on every partition (the partition fixes repo_name). -/
def labelOrd (r : LabelRow) : OrderDual String := OrderDual.toDual r.repo_name

/-- The PR MERGE of _merge_prs. -/
def mergePrs (repo : String) (staging prod : List PRRow) : List PRRow :=
  mergeKind prKey (fun r => r.cached_at) (fun r => r.repo_name) repo staging prod

/-- The review MERGE of _load_reviews. -/
def mergeReviews (repo : String) (staging prod : List ReviewRow) : List ReviewRow :=
  mergeKind reviewKey (fun r => r.cached_at) (fun r => r.repo_name) repo staging prod

/-- The file MERGE of _load_files. -/
def mergeFiles (repo : String) (staging prod : List FileRow) : List FileRow :=
  mergeKind fileKey (fun r => r.cached_at) (fun r => r.repo_name) repo staging prod

/-- The label MERGE of _load_labels. -/
def mergeLabels (repo : String) (staging prod : List LabelRow) : List LabelRow :=
  mergeKind labelKey labelOrd (fun r => r.repo_name) repo staging prod

/-- The production and staging tables the loader touches. -/
structure WarehouseDB where
  prs : List PRRow
  reviews : List ReviewRow
  files : List FileRow
  labels : List LabelRow
  stagingPrs : List PRRow
  stagingReviews : List ReviewRow
  stagingFiles : List FileRow
  stagingLabels : List LabelRow
deriving DecidableEq, Repr

/-- The four record kinds load_pull_requests processes, in order. -/
inductive Kind
  | pr
  | review
  | file
  | label
deriving DecidableEq, Repr

/-- One kind's staging-append plus reconciliation, with injected
failures: a staging failure leaves the database untouched, a merge
failure leaves the staged rows but not the production merge.  Kinds
that collect no rows return before any warehouse call (guardEmpty);
_merge_prs has no such guard relative to its rows. -/
def runKind {ρ : Type} (k : Kind) (guardEmpty failStage failMerge : Bool)
    (rows : List ρ) (addStage : WarehouseDB → List ρ → WarehouseDB)
    (doMerge : WarehouseDB → WarehouseDB) (db : WarehouseDB) :
    WarehouseDB × Option Kind :=
  if guardEmpty && rows.isEmpty then (db, none)
  else if failStage then (db, some k)
  else
    let db2 := addStage db rows
    if failMerge then (db2, some k)
    else (doMerge db2, none)

/-- BigQueryLoader.load_pull_requests with failure injection: embed the
PR bodies, then process the pr, review, file and label kinds in order,
stopping at the first kind whose staging append or merge fails (the
exception propagates; earlier kinds stay committed). -/
def loadPullRequestsF (failStage failMerge : Kind → Bool) (backend : EmbedBackend)
    (repo : String) (prs : List PullRequest) (cachedAt : Nat) (db : WarehouseDB) :
    WarehouseDB × Option Kind :=
  if prs.isEmpty then (db, none)
  else
    match runKind .pr false (failStage .pr) (failMerge .pr)
        (prRowsOf repo prs backend cachedAt)
        (fun db rows => { db with stagingPrs := db.stagingPrs ++ rows })
        (fun db => { db with prs := mergePrs repo db.stagingPrs db.prs }) db with
    | (db1, some k) => (db1, some k)
    | (db1, none) =>
      match runKind .review true (failStage .review) (failMerge .review)
          (reviewRowsOf repo prs backend cachedAt)
          (fun db rows => { db with stagingReviews := db.stagingReviews ++ rows })
          (fun db => { db with reviews := mergeReviews repo db.stagingReviews db.reviews }) db1 with
      | (db2, some k) => (db2, some k)
      | (db2, none) =>
        match runKind .file true (failStage .file) (failMerge .file)
            (fileRowsOf repo prs backend cachedAt)
            (fun db rows => { db with stagingFiles := db.stagingFiles ++ rows })
            (fun db => { db with files := mergeFiles repo db.stagingFiles db.files }) db2 with
        | (db3, some k) => (db3, some k)
        | (db3, none) =>
          runKind .label true (failStage .label) (failMerge .label)
            (labelRowsOf repo prs)
            (fun db rows => { db with stagingLabels := db.stagingLabels ++ rows })
            (fun db => { db with labels := mergeLabels repo db.stagingLabels db.labels }) db3

/-- The failure-free load_pull_requests. -/
def loadPullRequests (backend : EmbedBackend) (repo : String) (prs : List PullRequest)
    (cachedAt : Nat) (db : WarehouseDB) : WarehouseDB :=
  (loadPullRequestsF (fun _ => false) (fun _ => false) backend repo prs cachedAt db).1

/-- BigQueryLoader.get_table_row_counts (reads only). -/
def getTableRowCounts (db : WarehouseDB) : Nat × Nat × Nat × Nat :=
  (db.prs.length, db.reviews.length, db.files.length, db.labels.length)

/-! ### Claim theorems: rate limiting and retries -/

/-- A transient outcome in the retry loop: non-403/404 HTTP errors,
network/timeout/OS errors, and invalid-JSON responses. -/
def isTransient : AttemptOutcome → Bool
  | .httpOther _ => true
  | .netErr => true
  | .jsonErr => true
  | _ => false

theorem makeRequestAux_transient (script : Nat → AttemptOutcome) (mr : Nat) :
    ∀ fuel a, mr - a = fuel → a ≤ mr →
      (∀ i, a ≤ i → i ≤ mr → isTransient (script i) = true) →
      makeRequestAux script mr a =
        (fatalFor (script mr), mr - a + 1, (List.range' a (mr - a)).map (fun i => 2 ^ i + 1)) := by
  intro fuel
  induction fuel with
  | zero =>
    intro a hfa ham htr
    have haeq : a = mr := by omega
    subst haeq
    have := htr a (le_refl a) (le_refl a)
    unfold makeRequestAux
    cases hsa : script a <;> simp [hsa, isTransient] at this ⊢
  | succ fuel ih =>
    intro a hfa ham htr
    have halt : a < mr := by omega
    have := htr a (le_refl a) (by omega)
    unfold makeRequestAux
    cases hsa : script a <;> simp [hsa, isTransient] at this ⊢
    all_goals {
      rw [if_pos halt]
      rw [ih (a + 1) (by omega) (by omega) (fun i hi1 hi2 => htr i (by omega) hi2)]
      have hr : mr - a = (mr - (a + 1)) + 1 := by omega
      rw [hr, List.range'_succ]
      simp
    }

/-- C6.  Retry policy of _make_request: a rate-limited 403 raises
RateLimitError on the attempt that sees it, with no retry and no
backoff wait; a 404 raises immediately and is never retried; and a run
of transient errors (5xx / network / timeout / invalid JSON) is retried
with exponential backoff waits 2 ^ attempt + 1 until max_retries extra
attempts have been used, after which the fatal error for the last
exception is raised — max_retries + 1 attempts in total. -/
theorem spec_C6_retry_policy :
    (∀ script mr a, script a = .http403 true →
      makeRequestAux script mr a = (.rateLimitError, 1, [])) ∧
    (∀ script mr a, script a = .http404 →
      makeRequestAux script mr a = (.notFound, 1, [])) ∧
    (∀ script mr, (∀ i, i ≤ mr → isTransient (script i) = true) →
      makeRequest script mr =
        (fatalFor (script mr), mr + 1, (List.range mr).map (fun i => 2 ^ i + 1))) := by
  refine ⟨?_, ?_, ?_⟩
  · intro script mr a h
    unfold makeRequestAux
    simp [h]
  · intro script mr a h
    unfold makeRequestAux
    simp [h]
  · intro script mr h
    unfold makeRequest
    rw [makeRequestAux_transient script mr (mr - 0) 0 rfl (Nat.zero_le mr)
      (fun i _ hi2 => h i hi2)]
    simp [List.range_eq_range']

/-- Witness for C6: a straight-transient script with the default
max_retries = 3 performs 4 attempts with waits 2, 3, 5 and then raises
the network-fatal error; an immediate rate-limited 403 raises at once. -/
theorem spec_C6_retry_policy_witness :
    ((fun _ => AttemptOutcome.netErr) 0 = AttemptOutcome.http403 true → False) ∧
    makeRequest (fun _ => AttemptOutcome.netErr) 3 = (.netFatal, 4, [2, 3, 5]) ∧
    makeRequestAux (fun _ => AttemptOutcome.http403 true) 3 0 = (.rateLimitError, 1, []) := by
  refine ⟨by simp, ?_, ?_⟩
  · have := spec_C6_retry_policy.2.2 (fun _ => AttemptOutcome.netErr) 3
      (fun i _ => rfl)
    simpa using this
  · exact spec_C6_retry_policy.1 (fun _ => AttemptOutcome.http403 true) 3 0 rfl

/-- C5.  Rate-limit respect: whenever the tracked remaining budget is
exhausted (at most 1 left, the code's threshold) and the tracked reset
time is still in the future, the gate at the top of _make_request blocks
until reset plus one second, so the request is issued strictly after the
reset time — never before it. -/
theorem spec_C5_rate_limit_respected (now remaining reset : Nat)
    (hrem : remaining ≤ 1) (hfut : now < reset) :
    rateLimitGate now remaining reset = reset + 1 ∧
      reset < rateLimitGate now remaining reset := by
  unfold rateLimitGate
  rw [if_pos ⟨hrem, hfut⟩]
  omega

/-- Witness for C5: remaining = 1 and reset = now + 5 delays the request
to reset + 1. -/
theorem spec_C5_rate_limit_respected_witness :
    (1 ≤ 1 ∧ 100 < 105) ∧
      (rateLimitGate 100 1 105 = 106 ∧ 105 < rateLimitGate 100 1 105) :=
  ⟨⟨le_refl 1, by omega⟩, spec_C5_rate_limit_respected 100 1 105 (le_refl 1) (by omega)⟩

/-! ### Claim theorems: pagination -/

theorem getAllPagesAux_exact (items : List Nat) (pp k : Nat) (hpp : 0 < pp)
    (hlen : items.length = pp * k) (hk : k ≤ 99) :
    ∀ fuel page acc reqs, k + 1 - page = fuel → 1 ≤ page → page ≤ k + 1 →
      getAllPagesAux items pp page acc reqs =
        (acc ++ items.drop ((page - 1) * pp), reqs + (k + 2 - page)) := by
  intro fuel
  induction fuel with
  | zero =>
    intro page acc reqs hf h1 h2
    have hpk : page = k + 1 := by omega
    subst hpk
    have hdrop : items.drop ((k + 1 - 1) * pp) = [] := by
      apply List.drop_eq_nil_of_le
      rw [hlen]
      simp [Nat.mul_comm]
    unfold getAllPagesAux
    rw [hdrop]
    simp [hpp]
  | succ fuel ih =>
    intro page acc reqs hf h1 h2
    have hpk : page ≤ k := by omega
    have hsub : (k - (page - 1)) * pp = pp * k - (page - 1) * pp := by
      rw [Nat.sub_mul, Nat.mul_comm pp k]
    have hrem : pp ≤ items.length - (page - 1) * pp := by
      rw [hlen, ← hsub]
      have hone : 1 ≤ k - (page - 1) := by omega
      calc pp = 1 * pp := (Nat.one_mul pp).symm
        _ ≤ (k - (page - 1)) * pp := Nat.mul_le_mul_right pp hone
    have hdl : ((items.drop ((page - 1) * pp)).take pp).length = pp := by
      simp only [List.length_take, List.length_drop]
      omega
    have hstep : (page - 1) * pp + pp = page * pp := by
      have hp : page - 1 + 1 = page := by omega
      calc (page - 1) * pp + pp = (page - 1 + 1) * pp := by rw [Nat.succ_mul]
        _ = page * pp := by rw [hp]
    unfold getAllPagesAux
    rw [hdl]
    simp only [lt_self_iff_false, if_false]
    have hceil : ¬ page + 1 > 100 := by omega
    rw [dif_neg hceil]
    rw [ih (page + 1) (acc ++ (items.drop ((page - 1) * pp)).take pp) (reqs + 1)
      (by omega) (by omega) (by omega)]
    have hps : page + 1 - 1 = page := by omega
    rw [hps, ← hstep, ← List.drop_drop, List.append_assoc, List.take_append_drop]
    have hreq : reqs + 1 + (k + 2 - (page + 1)) = reqs + (k + 2 - page) := by omega
    rw [hreq]

theorem getAllPagesAux_req_le (items : List Nat) (pp : Nat) :
    ∀ fuel page acc reqs, 101 - page = fuel → 1 ≤ page → page ≤ 100 →
      (getAllPagesAux items pp page acc reqs).2 ≤ reqs + (101 - page) := by
  intro fuel
  induction fuel with
  | zero => intro page acc reqs hf h1 h2; omega
  | succ fuel ih =>
    intro page acc reqs hf h1 h2
    unfold getAllPagesAux
    split
    · simp; omega
    · split
      · simp; omega
      · rename_i hceil
        calc (getAllPagesAux items pp (page + 1) _ (reqs + 1)).2
            ≤ (reqs + 1) + (101 - (page + 1)) :=
              ih (page + 1) _ (reqs + 1) (by omega) (by omega) (by omega)
          _ ≤ reqs + (101 - page) := by omega

/-- C3.  Pagination termination: when the source holds exactly
per_page * k items (so the k-th page is the last one holding data and is
full), _get_all_pages terminates after collecting every item, issuing
the k data-page requests plus exactly the one empty probe request that
certifies the end of the listing (k + 1 requests in total, the minimum
any client of this page protocol needs when the last data page is
full), and on every input it never requests more than the 100-page
ceiling. -/
theorem spec_C3_pagination_termination (items : List Nat) (pp k : Nat)
    (hpp : 0 < pp) (hlen : items.length = pp * k) (hk : k ≤ 99) :
    getAllPages items pp = (items, k + 1) ∧
      ∀ (items2 : List Nat) (pp2 : Nat), (getAllPages items2 pp2).2 ≤ 100 := by
  constructor
  · unfold getAllPages
    rw [getAllPagesAux_exact items pp k hpp hlen hk (k + 1 - 1) 1 [] 0 rfl
      (le_refl 1) (by omega)]
    simp
  · intro items2 pp2
    have := getAllPagesAux_req_le items2 pp2 (101 - 1) 1 [] 0 rfl (le_refl 1) (by omega)
    unfold getAllPages
    omega

/-- Witness for C3: three items at page size one are collected in full
with 4 requests (3 data pages plus the empty probe), within the
ceiling. -/
theorem spec_C3_pagination_termination_witness :
    (0 < 1 ∧ [10, 20, 30].length = 1 * 3 ∧ 3 ≤ 99) ∧
      (getAllPages [10, 20, 30] 1 = ([10, 20, 30], 4) ∧
        ∀ (items2 : List Nat) (pp2 : Nat), (getAllPages items2 pp2).2 ≤ 100) :=
  ⟨⟨by omega, by decide, by omega⟩,
    spec_C3_pagination_termination [10, 20, 30] 1 3 (by omega) (by decide) (by omega)⟩

/-! ### Claim theorems: cache serialisation and corruption handling -/

/-- C10.  Cache serialisation round trip: _dict_to_pr inverts
_pr_to_dict on every field of every PullRequest, and store_pr followed
by get_pr returns the stored record (the added cached_at bookkeeping
value is written but not read back). -/
theorem spec_C10_cache_roundtrip (pr : PullRequest) (t : Nat) :
    dictToPr (prToDict pr t) = .ok pr ∧
      getPr (storedFileState pr t) = .ok (some pr) := by
  refine ⟨dictToPr_prToDict pr t, ?_⟩
  simp [getPr, storedFileState, dictToPr_prToDict]

/-- C9 (counterexample).  get_pr does not convert every unreadable or
corrupt entry into a miss: an existing-but-unreadable file raises OSError
(open is outside the try/except, which catches only JSONDecodeError,
KeyError and ValueError), and a JSON document of the wrong shape (here a
bare string, subscripted by _dict_to_pr) raises TypeError; neither is
the `None` cache miss the claim requires. -/
theorem spec_C9_unreadable_raises_cex :
    getPr .unreadable = .error .osError ∧ getPr .unreadable ≠ .ok none ∧
      getPr (.json (Json.str "oops")) = .error .typeError :=
  ⟨rfl, fun h => Except.noConfusion h, rfl⟩

/-- C9 (amended).  The corruption modes get_pr does catch behave as the
claim says: a missing file, a file that is not valid JSON
(JSONDecodeError), and a JSON document whose decoding fails with a
missing key (KeyError) or a malformed value (ValueError — bad enum value
or bad timestamp string) are all returned as the cache-miss value None,
with no exception; but an unreadable file (OSError) or a document of the
wrong JSON shape (TypeError) escapes to the caller. -/
theorem spec_C9_corruption_as_miss (j : Json)
    (h : dictToPr j = .error .keyError ∨ dictToPr j = .error .valueError) :
    getPr (.json j) = .ok none ∧ getPr .notJson = .ok none ∧
      getPr .missing = .ok none := by
  refine ⟨?_, rfl, rfl⟩
  rcases h with h | h <;> simp [getPr, h]

/-- Witness for C9 (amended): the empty JSON object fails with
KeyError and reads as a miss. -/
theorem spec_C9_corruption_as_miss_witness :
    (dictToPr (Json.obj []) = .error .keyError ∨
      dictToPr (Json.obj []) = .error .valueError) ∧
      (getPr (.json (Json.obj [])) = .ok none ∧ getPr .notJson = .ok none ∧
        getPr .missing = .ok none) :=
  ⟨Or.inl rfl, spec_C9_corruption_as_miss (Json.obj []) (Or.inl rfl)⟩

/-! ### Claim theorems: reconciliation deduplication -/

theorem winnerFor_spec {ρ κ σ : Type} [DecidableEq ρ] [DecidableEq κ] [LinearOrder σ]
    (key : ρ → κ) (ord : ρ → σ) (staging : List ρ) (k : κ) (w : ρ)
    (h : winnerFor key ord staging k = some w) :
    w ∈ staging ∧ key w = k ∧ ∀ r ∈ staging, key r = k → ord r ≤ ord w := by
  simp only [winnerFor, grpOf] at h
  have hmem := List.mem_of_find?_eq_some h
  have hpred := List.find?_some h
  rw [List.mem_filter] at hmem
  refine ⟨hmem.1, by simpa using hmem.2, ?_⟩
  intro r hr hk
  have hrg : r ∈ staging.filter (fun r => decide (key r = k)) :=
    List.mem_filter.mpr ⟨hr, by simpa using hk⟩
  have := List.all_eq_true.mp hpred r hrg
  simpa using this

/-- C2 (amended).  Dedup correctness for the timestamped kinds: whenever
the reconciliation's window picks a winner row for a natural key, that
winner is one of the staging rows carrying the key and its cached_at
(observed_at) is maximal among them.  Uniqueness holds only when the
maximum is attained once: ties — and all label rows, whose window
ordering is the constant repo_name — are resolved arbitrarily by the
engine (see the counterexample). -/
theorem spec_C2_dedup_max_observed (staging : List PRRow) (k : String × Nat)
    (w : PRRow) (h : winnerFor prKey (fun r => r.cached_at) staging k = some w) :
    w ∈ staging ∧ prKey w = k ∧
      ∀ r ∈ staging, prKey r = k → r.cached_at ≤ w.cached_at :=
  winnerFor_spec prKey (fun r => r.cached_at) staging k w h

/-- A staged PR row observed at time 5. -/
def prRowEarly : PRRow :=
  { repo_name := "o/r", number := 1, title := "t1", body := none,
    body_embedding := [], state := "open", author := "a", html_url := "u",
    created_at := "T1", updated_at := "T1", merged_at := none, closed_at := none,
    base_branch := "main", head_branch := "f", additions := 0, deletions := 0,
    changed_files := 0, draft := false, cached_at := 5 }

/-- The same natural key observed later, at time 9. -/
def prRowLate : PRRow :=
  { prRowEarly with title := "t2", cached_at := 9 }

/-- Witness for C2 (amended): of two staged rows for one key, the
reconciled winner is the one with the larger cached_at. -/
theorem spec_C2_dedup_max_observed_witness :
    winnerFor prKey (fun r => r.cached_at) [prRowEarly, prRowLate] ("o/r", 1) =
        some prRowLate ∧
      (prRowLate ∈ [prRowEarly, prRowLate] ∧ prKey prRowLate = ("o/r", 1) ∧
        ∀ r ∈ [prRowEarly, prRowLate], prKey r = ("o/r", 1) →
          r.cached_at ≤ prRowLate.cached_at) :=
  ⟨by decide, spec_C2_dedup_max_observed [prRowEarly, prRowLate] ("o/r", 1)
    prRowLate (by decide)⟩

/-- Two staged label rows for the same (repo, pr, name) key whose
descriptions conflict. -/
def labelRowA : LabelRow :=
  { repo_name := "o/r", pr_number := 1, label_name := "bug",
    label_color := "red", label_description := some "first" }

/-- The conflicting duplicate of labelRowA. -/
def labelRowB : LabelRow :=
  { labelRowA with label_description := some "second" }

/-- C2 (counterexample).  The label reconciliation does not choose its
winner deterministically: its window orders each partition by repo_name,
which the partition key holds constant, so both of two conflicting rows
for the same label key are admissible ROW_NUMBER-1 winners; the row
written to production is whichever the engine happens to rank first,
and the two candidate outcomes differ. -/
theorem spec_C2_label_tie_cex :
    canBeRowOne labelKey labelOrd [labelRowA, labelRowB] labelRowA ∧
      canBeRowOne labelKey labelOrd [labelRowA, labelRowB] labelRowB ∧
      labelRowA ≠ labelRowB := by
  refine ⟨⟨by decide, ?_⟩, ⟨by decide, ?_⟩, by decide⟩ <;>
    · intro r2 hr2 hk
      fin_cases hr2 <;> exact le_of_eq rfl

/-! ### Claim theorems: embedding batch null-safety -/

theorem fillAt_length (pairs : List (Nat × Vec)) :
    ∀ init, (fillAt init pairs).length = init.length := by
  induction pairs with
  | nil => intro init; rfl
  | cons p ps ih =>
    intro init
    simp only [fillAt, List.foldl_cons] at ih ⊢
    rw [ih]
    simp

theorem fillAt_getElem?_of_not_mem (pairs : List (Nat × Vec)) (i : Nat) :
    ∀ init, (∀ p ∈ pairs, p.1 ≠ i) → (fillAt init pairs)[i]? = init[i]? := by
  induction pairs with
  | nil => intro init _; rfl
  | cons p ps ih =>
    intro init hnm
    simp only [fillAt, List.foldl_cons] at ih ⊢
    rw [ih (init.set p.1 (some p.2)) (fun q hq => hnm q (List.mem_cons_of_mem p hq))]
    exact List.getElem?_set_ne (hnm p (List.mem_cons_self p ps))

theorem processBatch_length (be : EmbedBackend) (b : List String) :
    (processBatch be b).length = b.length := by
  simp only [processBatch]
  split
  · simp
  · split
    · rw [fillAt_length]
      simp
    · simp

theorem processBatch_blank (be : EmbedBackend) (b : List String) (i : Nat) (t : String)
    (ht : b[i]? = some t) (hv : isValidText t = false) :
    (processBatch be b)[i]? = some none := by
  have hi : i < b.length := by
    by_contra hlt
    rw [List.getElem?_eq_none (by omega)] at ht
    exact Option.noConfusion ht
  have hrep : (List.replicate b.length (none : Option Vec))[i]? = some none := by
    simp [List.getElem?_replicate, hi]
  simp only [processBatch]
  split
  · exact hrep
  · split
    · rename_i embs _
      rw [fillAt_getElem?_of_not_mem]
      · exact hrep
      · intro p hp
        have hfst := (List.of_mem_zip hp).1
        rw [List.mem_map] at hfst
        obtain ⟨q, hq, hq1⟩ := hfst
        rw [List.mem_filter] at hq
        obtain ⟨j, s⟩ := q
        intro hji
        rw [← hq1] at hji
        simp only at hji
        subst hji
        have hjs := (List.mk_mem_enum_iff_getElem?.mp hq.1)
        rw [ht] at hjs
        have hts : t = s := by injection hjs
        subst hts
        have := hq.2
        simp only [decide_eq_true_eq] at this
        rw [hv] at this
        exact Bool.noConfusion this
    · exact hrep

theorem toBatches_nil (bs : Nat) : toBatches bs [] = [] := by
  unfold toBatches
  simp

theorem toBatches_cons (bs : Nat) (l : List String) (hl : l ≠ []) (hbs : bs ≠ 0) :
    toBatches bs l = l.take bs :: toBatches bs (l.drop bs) := by
  conv_lhs => rw [toBatches]
  rw [dif_neg (by simp [hl, hbs])]

theorem genBatchEmb_length_aux (be : EmbedBackend) (bs : Nat) (hbs : 0 < bs) :
    ∀ n (texts : List String), texts.length ≤ n →
      (generateBatchEmbeddings be texts bs).length = texts.length := by
  intro n
  induction n with
  | zero =>
    intro texts h
    have hnil : texts = [] := List.length_eq_zero.mp (by omega)
    subst hnil
    simp [generateBatchEmbeddings, toBatches_nil]
  | succ n ih =>
    intro texts h
    by_cases hl : texts = []
    · subst hl
      simp [generateBatchEmbeddings, toBatches_nil]
    · unfold generateBatchEmbeddings
      rw [toBatches_cons bs texts hl (by omega)]
      simp only [List.map_cons, List.flatten_cons, List.length_append]
      have hlen1 : 1 ≤ texts.length := by
        cases texts with
        | nil => exact absurd rfl hl
        | cons x xs => simp
      have h2 := ih (texts.drop bs) (by simp only [List.length_drop]; omega)
      unfold generateBatchEmbeddings at h2
      rw [h2, processBatch_length]
      simp only [List.length_take, List.length_drop]
      omega

theorem genBatchEmb_blank_aux (be : EmbedBackend) (bs : Nat) (hbs : 0 < bs) :
    ∀ n (texts : List String), texts.length ≤ n →
      ∀ (i : Nat) (t : String), texts[i]? = some t → isValidText t = false →
        (generateBatchEmbeddings be texts bs)[i]? = some none := by
  intro n
  induction n with
  | zero =>
    intro texts h i t ht _
    have hnil : texts = [] := List.length_eq_zero.mp (by omega)
    subst hnil
    simp at ht
  | succ n ih =>
    intro texts h i t ht hv
    have hil : i < texts.length := by
      by_contra hlt
      rw [List.getElem?_eq_none (by omega)] at ht
      exact Option.noConfusion ht
    by_cases hl : texts = []
    · subst hl; simp at hil
    · unfold generateBatchEmbeddings
      rw [toBatches_cons bs texts hl (by omega)]
      simp only [List.map_cons, List.flatten_cons]
      by_cases hi : i < (texts.take bs).length
      · rw [List.getElem?_append_left (by rw [processBatch_length]; exact hi)]
        apply processBatch_blank be _ i t _ hv
        rw [List.getElem?_take_of_lt (by simp only [List.length_take] at hi; omega)]
        exact ht
      · have hib : bs ≤ i := by
          simp only [List.length_take] at hi
          omega
        rw [List.getElem?_append_right (by rw [processBatch_length]; omega)]
        rw [processBatch_length]
        have htk : (texts.take bs).length = bs := by
          simp only [List.length_take]
          omega
        rw [htk]
        have hdr : (texts.drop bs)[i - bs]? = some t := by
          rw [List.getElem?_drop]
          rw [show bs + (i - bs) = i by omega]
          exact ht
        have := ih (texts.drop bs) (by simp only [List.length_drop]; omega)
          (i - bs) t hdr hv
        unfold generateBatchEmbeddings at this
        exact this

theorem genBatchCalls_valid (texts : List String) (bs : Nat) :
    ∀ c ∈ generateBatchCalls texts bs, ∀ t ∈ c, isValidText t = true := by
  intro c hc t htc
  unfold generateBatchCalls at hc
  rw [List.mem_flatten] at hc
  obtain ⟨cs, hcs, hcmem⟩ := hc
  rw [List.mem_map] at hcs
  obtain ⟨b, _, rfl⟩ := hcs
  simp only [batchCalls] at hcmem
  split at hcmem
  · exact absurd hcmem (List.not_mem_nil c)
  · rw [List.mem_singleton] at hcmem
    subst hcmem
    rw [List.mem_map] at htc
    obtain ⟨q, hq, rfl⟩ := htc
    rw [List.mem_filter] at hq
    simpa using hq.2

/-- C7.  Embedding null-safety: for every input list and positive batch
size, generate_batch_embeddings returns exactly one slot per input text
(in input order), no blank or empty string is ever included in a call
to the embedding backend, and every blank or empty input yields None at
its original position. -/
theorem spec_C7_embedding_null_safety (be : EmbedBackend) (texts : List String)
    (bs : Nat) (hbs : 0 < bs) :
    (generateBatchEmbeddings be texts bs).length = texts.length ∧
      (∀ c ∈ generateBatchCalls texts bs, ∀ t ∈ c, isValidText t = true) ∧
      (∀ (i : Nat) (t : String), texts[i]? = some t → isValidText t = false →
        (generateBatchEmbeddings be texts bs)[i]? = some none) :=
  ⟨genBatchEmb_length_aux be bs hbs texts.length texts (le_refl _),
    genBatchCalls_valid texts bs,
    fun i t ht hv =>
      genBatchEmb_blank_aux be bs hbs texts.length texts (le_refl _) i t ht hv⟩

/-- A concrete embedding backend for the C7 witness. -/
def embBackend0 : EmbedBackend := fun ts => some (ts.map (fun _ => [1]))

/-- Witness for C7 at batch size 2 over a blank, a valid and a
whitespace-only text. -/
theorem spec_C7_embedding_null_safety_witness :
    0 < 2 ∧
      ((generateBatchEmbeddings embBackend0 ["", "hello", " "] 2).length =
          (["", "hello", " "] : List String).length ∧
        (∀ c ∈ generateBatchCalls ["", "hello", " "] 2, ∀ t ∈ c, isValidText t = true) ∧
        (∀ (i : Nat) (t : String), (["", "hello", " "] : List String)[i]? = some t → isValidText t = false →
          (generateBatchEmbeddings embBackend0 ["", "hello", " "] 2)[i]? = some none)) :=
  ⟨by omega, spec_C7_embedding_null_safety embBackend0 ["", "hello", " "] 2 (by omega)⟩

/-! ### Claim theorems: cache read-through policy of the fetch paths -/

/-- The in-window test of get_merged_prs, as a Boolean on listing
items: merged, and merged_at within [since, until]. -/
def mergedInWindow (it : GhItem) (since untilT : Nat) : Bool :=
  match it.merged_at with
  | none => false
  | some m => !(decide (m < since) || decide (untilT < m))

theorem getMergedPrs_enriched_aux (cache : Nat → Option PullRequest)
    (enrich : PullRequest → PullRequest) (since untilT : Nat) :
    ∀ (items : List GhItem) (acc : FetchTrace),
      (items.foldl (mergedStep cache enrich since untilT) acc).enriched =
        acc.enriched ++
          (items.filter (fun it =>
            mergedInWindow it since untilT && (cache it.number).isNone)).map
            (fun it => it.number) := by
  intro items
  induction items with
  | nil => intro acc; simp
  | cons it items ih =>
    intro acc
    rw [List.foldl_cons, ih, List.filter_cons]
    cases hma : it.merged_at with
    | none => simp [mergedStep, mergedInWindow, hma]
    | some m =>
      by_cases hw : m < since ∨ untilT < m
      · have hwb : mergedInWindow it since untilT = false := by
          simp [mergedInWindow, hma]
          omega
        simp [mergedStep, hma, hw, hwb]
      · have hwb : mergedInWindow it since untilT = true := by
          simp [mergedInWindow, hma]
          omega
        cases hc : cache it.number with
        | some cpr => simp [mergedStep, hma, hw, hc, hwb]
        | none => simp [mergedStep, hma, hw, hc, hwb]

theorem getOpenPrs_enriched_aux (cache : Nat → Option PullRequest)
    (enrich : PullRequest → PullRequest) :
    ∀ (items : List GhItem) (acc : FetchTrace),
      (items.foldl (openStep cache enrich) acc).enriched =
        acc.enriched ++ items.map (fun it => it.number) := by
  intro items
  induction items with
  | nil => intro acc; simp
  | cons it items ih =>
    intro acc
    rw [List.foldl_cons, ih]
    cases hc : cache it.number with
    | some cpr =>
      by_cases hs : cpr.state = PRState.OPEN <;> simp [openStep, hc, hs]
    | none => simp [openStep, hc]

/-- C4 (amended).  What the two fetch paths actually do with the cache:
in the merged-window fetch, exactly the in-window merged items that miss
the cache are enriched (once each, in listing order) — any cache hit
short-circuits enrichment entirely, whatever state the snapshot is in;
in the open fetch, every listed item within the limit is enriched
exactly once — a hit in the open state re-enriches the cached record,
while a miss or a hit in any other state enriches a record rebuilt from
the listing item. -/
theorem spec_C4_cache_read_through :
    (∀ (cache : Nat → Option PullRequest) (enrich : PullRequest → PullRequest)
        (items : List GhItem) (since untilT : Nat),
      (getMergedPrs cache enrich items since untilT).enriched =
        (items.filter (fun it =>
          mergedInWindow it since untilT && (cache it.number).isNone)).map
          (fun it => it.number)) ∧
    (∀ (cache : Nat → Option PullRequest) (enrich : PullRequest → PullRequest)
        (items : List GhItem) (limit : Nat),
      (getOpenPrs cache enrich items limit).enriched =
        (items.take limit).map (fun it => it.number)) := by
  constructor
  · intro cache enrich items since untilT
    unfold getMergedPrs
    rw [getMergedPrs_enriched_aux]
    rfl
  · intro cache enrich items limit
    unfold getOpenPrs
    rw [getOpenPrs_enriched_aux]
    rfl

/-- A listing item for parent #1, merged at time 5. -/
def ghItemMerged : GhItem :=
  { number := 1, title := "t", body := none, state := "closed",
    created_at := 0, updated_at := 0, merged_at := some 5, closed_at := some 5,
    user := { login := "a", name := none, avatar_url := none, html_url := none },
    html_url := "u", base_ref := "main", head_ref := "f", labels := [],
    requested_reviewers := [], assignees := [], additions := 0, deletions := 0,
    changed_files := 0, draft := false, mergeable := none }

/-- A listing item for parent #1 in the open state. -/
def ghItemOpen : GhItem :=
  { ghItemMerged with state := "open", merged_at := none, closed_at := none }

/-- A cached snapshot of parent #1 still in the open state. -/
def cachedOpenSnapshot : PullRequest :=
  { fromGithubData ghItemMerged with state := .OPEN }

/-- A cached snapshot of parent #1 in the terminal merged state. -/
def cachedMergedSnapshot : PullRequest :=
  fromGithubData ghItemMerged

/-- A cache holding only the open snapshot of parent #1. -/
def cacheWithOpen : Nat → Option PullRequest :=
  fun n => if n = 1 then some cachedOpenSnapshot else none

/-- A cache holding only the merged snapshot of parent #1. -/
def cacheWithMerged : Nat → Option PullRequest :=
  fun n => if n = 1 then some cachedMergedSnapshot else none

/-- C4 (counterexample).  The claimed state-dependence of the cache
policy fails on both fetch paths: the merged-window fetch uses an
open-state snapshot as-is and performs zero enrichment calls (the claim
demands exactly one for an open snapshot), and the open fetch enriches
in the face of a terminal-state (merged) snapshot (the claim demands a
terminal hit short-circuit enrichment entirely). -/
theorem spec_C4_cache_read_through_cex :
    (cacheWithOpen 1 = some cachedOpenSnapshot ∧
      cachedOpenSnapshot.state = .OPEN ∧
      mergedInWindow ghItemMerged 0 10 = true ∧
      (getMergedPrs cacheWithOpen id [ghItemMerged] 0 10).enriched = []) ∧
    (cacheWithMerged 1 = some cachedMergedSnapshot ∧
      cachedMergedSnapshot.state = .MERGED ∧
      (getOpenPrs cacheWithMerged id [ghItemOpen] 100).enriched = [1]) := by
  refine ⟨⟨rfl, rfl, rfl, ?_⟩, ⟨rfl, rfl, ?_⟩⟩ <;> decide

/-! ### Idempotence of the reconciliation -/

section MergeLemmas

variable {ρ κ σ : Type} [DecidableEq ρ] [DecidableEq κ] [LinearOrder σ]

theorem firstDedup_subset {κ : Type} [DecidableEq κ] :
    ∀ l : List κ, ∀ k ∈ firstDedup l, k ∈ l := by
  intro l
  induction l using firstDedup.induct with
  | case1 => intro k hk; simp [firstDedup] at hk
  | case2 k ks ih =>
    intro x hx
    rw [firstDedup] at hx
    rcases List.mem_cons.mp hx with h | h
    · simp [h]
    · have := ih x h
      exact List.mem_cons_of_mem k (List.mem_of_mem_filter this)

theorem firstDedup_nodup {κ : Type} [DecidableEq κ] :
    ∀ l : List κ, (firstDedup l).Nodup := by
  intro l
  induction l using firstDedup.induct with
  | case1 => simp [firstDedup]
  | case2 k ks ih =>
    rw [firstDedup]
    refine List.Nodup.cons ?_ ih
    intro hk
    have := firstDedup_subset _ k hk
    have := List.of_mem_filter this
    simp at this

theorem firstDedup_append_subset {κ : Type} [DecidableEq κ] :
    ∀ l e : List κ, (∀ x ∈ e, x ∈ l) → firstDedup (l ++ e) = firstDedup l := by
  intro l
  induction l using firstDedup.induct with
  | case1 =>
    intro e he
    have : e = [] := List.eq_nil_iff_forall_not_mem.mpr (fun x hx => (List.not_mem_nil x) (he x hx))
    simp [this]
  | case2 k ks ih =>
    intro e he
    rw [List.cons_append, firstDedup, firstDedup, List.filter_append]
    congr 1
    apply ih
    intro x hx
    rw [List.mem_filter] at hx
    have hxe := he x hx.1
    rcases List.mem_cons.mp hxe with h | h
    · exfalso
      have := hx.2
      simp [h] at this
    · exact List.mem_filter.mpr ⟨h, hx.2⟩

theorem find?_congr_pred {α : Type} (p q : α → Bool) :
    ∀ l : List α, (∀ x, p x = q x) → l.find? p = l.find? q := by
  intro l h
  induction l with
  | nil => rfl
  | cons x xs ih =>
    cases hq : q x with
    | true =>
      rw [List.find?_cons_of_pos _ (by rw [h x, hq]), List.find?_cons_of_pos _ hq]
    | false =>
      rw [List.find?_cons_of_neg _ (by rw [h x, hq]; exact Bool.false_ne_true),
        List.find?_cons_of_neg _ (by rw [hq]; exact Bool.false_ne_true)]
      exact ih

theorem winnerFor_append_subset (key : ρ → κ) (ord : ρ → σ) (l e : List ρ)
    (he : ∀ x ∈ e, x ∈ l) (k : κ) :
    winnerFor key ord (l ++ e) k = winnerFor key ord l k := by
  simp only [winnerFor, grpOf, List.filter_append]
  set g := l.filter (fun r => decide (key r = k)) with hg
  set ge := e.filter (fun r => decide (key r = k)) with hge
  have hsub : ∀ x ∈ ge, x ∈ g := by
    intro x hx
    rw [hge, List.mem_filter] at hx
    exact List.mem_filter.mpr ⟨he x hx.1, hx.2⟩
  have hpred : ∀ r : ρ,
      ((g ++ ge).all (fun r2 => decide (ord r2 ≤ ord r))) =
        (g.all (fun r2 => decide (ord r2 ≤ ord r))) := by
    intro r
    rw [List.all_append]
    cases hga : g.all (fun r2 => decide (ord r2 ≤ ord r)) with
    | false => simp
    | true =>
      have : ge.all (fun r2 => decide (ord r2 ≤ ord r)) = true := by
        rw [List.all_eq_true] at hga ⊢
        intro x hx
        exact hga x (hsub x hx)
      simp [this]
  rw [List.find?_append]
  have hcg : g.find? (fun r => (g ++ ge).all (fun r2 => decide (ord r2 ≤ ord r))) =
      g.find? (fun r => g.all (fun r2 => decide (ord r2 ≤ ord r))) :=
    find?_congr_pred _ _ g hpred
  rw [hcg]
  cases hfg : g.find? (fun r => g.all (fun r2 => decide (ord r2 ≤ ord r))) with
  | some w => rfl
  | none =>
    simp only [Option.none_or]
    cases hfe : ge.find? (fun r => (g ++ ge).all (fun r2 => decide (ord r2 ≤ ord r))) with
    | none => rfl
    | some w =>
      exfalso
      have hwge := List.mem_of_find?_eq_some hfe
      have hpw := List.find?_some hfe
      rw [hpred w] at hpw
      have hnone := List.find?_eq_none.mp hfg w (hsub w hwge)
      rw [hpw] at hnone
      exact hnone rfl

theorem dedupWinners_append_subset (key : ρ → κ) (ord : ρ → σ) (l e : List ρ)
    (he : ∀ x ∈ e, x ∈ l) :
    dedupWinners key ord (l ++ e) = dedupWinners key ord l := by
  unfold dedupWinners
  rw [List.map_append, firstDedup_append_subset (l.map key) (e.map key)
    (by intro x hx; rw [List.mem_map] at hx ⊢; obtain ⟨r, hr, rfl⟩ := hx
        exact ⟨r, he r hr, rfl⟩)]
  apply List.filterMap_congr
  intro k _
  exact winnerFor_append_subset key ord l e he k

theorem winnerFor_key (key : ρ → κ) (ord : ρ → σ) (staging : List ρ) (k : κ) (w : ρ)
    (h : winnerFor key ord staging k = some w) : key w = k :=
  (winnerFor_spec key ord staging k w h).2.1

theorem dedupWinners_keys_sublist (key : ρ → κ) (ord : ρ → σ) (staging : List ρ) :
    ∀ ks : List κ, (∀ k ∈ ks, ∀ w, winnerFor key ord staging k = some w → key w = k) →
      ((ks.filterMap (winnerFor key ord staging)).map key).Sublist ks := by
  intro ks
  induction ks with
  | nil => intro _; simp
  | cons k ks ih =>
    intro h
    rw [List.filterMap_cons]
    cases hw : winnerFor key ord staging k with
    | none =>
      exact (ih (fun k2 hk2 => h k2 (List.mem_cons_of_mem k hk2))).cons k
    | some w =>
      rw [List.map_cons, h k (List.mem_cons_self k ks) w hw]
      exact (ih (fun k2 hk2 => h k2 (List.mem_cons_of_mem k hk2))).cons₂ k

theorem dedupWinners_keys_nodup (key : ρ → κ) (ord : ρ → σ) (staging : List ρ) :
    ((dedupWinners key ord staging).map key).Nodup := by
  unfold dedupWinners
  exact List.Nodup.sublist
    (dedupWinners_keys_sublist key ord staging (firstDedup (staging.map key))
      (fun k _ w hw => winnerFor_key key ord staging k w hw))
    (firstDedup_nodup (staging.map key))

theorem find?_key_self (key : ρ → κ) :
    ∀ ws : List ρ, ((ws.map key).Nodup) → ∀ s ∈ ws,
      ws.find? (fun x => decide (key x = key s)) = some s := by
  intro ws
  induction ws with
  | nil => intro _ s hs; exact absurd hs (List.not_mem_nil s)
  | cons w ws ih =>
    intro hnd s hs
    rw [List.map_cons, List.nodup_cons] at hnd
    rcases List.mem_cons.mp hs with h | h
    · subst h
      rw [List.find?_cons_of_pos _ (by simp)]
    · have hne : key w ≠ key s := by
        intro he
        exact hnd.1 (he ▸ List.mem_map_of_mem key h)
      rw [List.find?_cons_of_neg _ (by simp [hne])]
      exact ih hnd.2 s h

theorem upsert_keys_present (key : ρ → κ) (prod ws : List ρ) (s : ρ) (hs : s ∈ ws) :
    ∃ t ∈ upsert key prod ws, key t = key s := by
  by_cases hany : prod.any (fun t => decide (key t = key s)) = true
  · rw [List.any_eq_true] at hany
    obtain ⟨t0, ht0, hkt0⟩ := hany
    rw [decide_eq_true_eq] at hkt0
    have hfind : ∃ w, ws.find? (fun x => decide (key x = key t0)) = some w := by
      have : ∃ x ∈ ws, (fun x => decide (key x = key t0)) x = true :=
        ⟨s, hs, by simp [hkt0]⟩
      rcases hx : ws.find? (fun x => decide (key x = key t0)) with _ | w
      · rw [List.find?_eq_none] at hx
        obtain ⟨x, hxw, hxp⟩ := this
        exact absurd hxp (by simp [hx x hxw])
      · exact ⟨w, rfl⟩
    obtain ⟨w, hw⟩ := hfind
    have hkw : key w = key t0 := by
      have := List.find?_some hw
      simpa using this
    refine ⟨w, ?_, by rw [hkw, hkt0]⟩
    unfold upsert
    apply List.mem_append_left
    rw [List.mem_map]
    exact ⟨t0, ht0, by rw [hw]⟩
  · refine ⟨s, ?_, rfl⟩
    unfold upsert
    apply List.mem_append_right
    rw [List.mem_filter]
    exact ⟨hs, by simp at hany ⊢; exact hany⟩

theorem upsert_idem (key : ρ → κ) (prod ws : List ρ) (hnd : ((ws.map key)).Nodup) :
    upsert key (upsert key prod ws) ws = upsert key prod ws := by
  have hrep : ∀ t ∈ upsert key prod ws,
      (match ws.find? (fun x => decide (key x = key t)) with
        | some st => st
        | none => t) = t := by
    intro t ht
    unfold upsert at ht
    rcases List.mem_append.mp ht with h | h
    · rw [List.mem_map] at h
      obtain ⟨t0, _, rfl⟩ := h
      cases hf : ws.find? (fun x => decide (key x = key t0)) with
      | none => simp [hf]
      | some st =>
        simp only [hf]
        have hmem := List.mem_of_find?_eq_some hf
        have hself := find?_key_self key ws hnd st hmem
        rw [hself]
    · rw [List.mem_filter] at h
      have hself := find?_key_self key ws hnd t h.1
      rw [hself]
  have hfil : ws.filter
      (fun st => !((upsert key prod ws).any (fun t => decide (key t = key st)))) = [] := by
    rw [List.filter_eq_nil_iff]
    intro s hs
    obtain ⟨t, ht, hk⟩ := upsert_keys_present key prod ws s hs
    have hany : (upsert key prod ws).any (fun t => decide (key t = key s)) = true :=
      List.any_eq_true.mpr ⟨t, ht, by simp [hk]⟩
    simp [hany]
  conv_lhs => rw [upsert]
  rw [List.map_congr_left (fun t ht => hrep t ht), List.map_id', hfil, List.append_nil]

theorem mergeKind_idem (key : ρ → κ) (ord : ρ → σ) (repoOf : ρ → String) (repo : String)
    (s0 R prod : List ρ) :
    mergeKind key ord repoOf repo (s0 ++ R ++ R)
      (mergeKind key ord repoOf repo (s0 ++ R) prod) =
    mergeKind key ord repoOf repo (s0 ++ R) prod := by
  unfold mergeKind
  rw [List.filter_append (s0 ++ R) R]
  rw [dedupWinners_append_subset key ord
    ((s0 ++ R).filter (fun r => decide (repoOf r = repo)))
    (R.filter (fun r => decide (repoOf r = repo)))
    (fun x hx => by
      rw [List.mem_filter] at hx ⊢
      exact ⟨List.mem_append_right s0 hx.1, hx.2⟩)]
  exact upsert_idem key prod _ (dedupWinners_keys_nodup key ord _)

end MergeLemmas

theorem loadPullRequests_clean_eq (backend : EmbedBackend) (repo : String)
    (prs : List PullRequest) (cachedAt : Nat) (db : WarehouseDB)
    (hne : prs.isEmpty = false) :
    loadPullRequestsF (fun _ => false) (fun _ => false) backend repo prs cachedAt db =
      ({ prs := mergePrs repo (db.stagingPrs ++ prRowsOf repo prs backend cachedAt) db.prs,
         reviews := if (reviewRowsOf repo prs backend cachedAt).isEmpty then db.reviews
           else mergeReviews repo
             (db.stagingReviews ++ reviewRowsOf repo prs backend cachedAt) db.reviews,
         files := if (fileRowsOf repo prs backend cachedAt).isEmpty then db.files
           else mergeFiles repo
             (db.stagingFiles ++ fileRowsOf repo prs backend cachedAt) db.files,
         labels := if (labelRowsOf repo prs).isEmpty then db.labels
           else mergeLabels repo (db.stagingLabels ++ labelRowsOf repo prs) db.labels,
         stagingPrs := db.stagingPrs ++ prRowsOf repo prs backend cachedAt,
         stagingReviews := if (reviewRowsOf repo prs backend cachedAt).isEmpty
           then db.stagingReviews
           else db.stagingReviews ++ reviewRowsOf repo prs backend cachedAt,
         stagingFiles := if (fileRowsOf repo prs backend cachedAt).isEmpty
           then db.stagingFiles
           else db.stagingFiles ++ fileRowsOf repo prs backend cachedAt,
         stagingLabels := if (labelRowsOf repo prs).isEmpty then db.stagingLabels
           else db.stagingLabels ++ labelRowsOf repo prs }, none) := by
  unfold loadPullRequestsF runKind
  by_cases h2 : (reviewRowsOf repo prs backend cachedAt).isEmpty <;>
    by_cases h3 : (fileRowsOf repo prs backend cachedAt).isEmpty <;>
      by_cases h4 : (labelRowsOf repo prs).isEmpty <;>
        simp [hne, h2, h3, h4]

theorem mergePrs_idem (repo : String) (s0 R : List PRRow) (prod : List PRRow) :
    mergePrs repo (s0 ++ R ++ R) (mergePrs repo (s0 ++ R) prod) =
      mergePrs repo (s0 ++ R) prod :=
  mergeKind_idem prKey (fun r => r.cached_at) (fun r => r.repo_name) repo s0 R prod

theorem mergeReviews_idem (repo : String) (s0 R : List ReviewRow) (prod : List ReviewRow) :
    mergeReviews repo (s0 ++ R ++ R) (mergeReviews repo (s0 ++ R) prod) =
      mergeReviews repo (s0 ++ R) prod :=
  mergeKind_idem reviewKey (fun r => r.cached_at) (fun r => r.repo_name) repo s0 R prod

theorem mergeFiles_idem (repo : String) (s0 R : List FileRow) (prod : List FileRow) :
    mergeFiles repo (s0 ++ R ++ R) (mergeFiles repo (s0 ++ R) prod) =
      mergeFiles repo (s0 ++ R) prod :=
  mergeKind_idem fileKey (fun r => r.cached_at) (fun r => r.repo_name) repo s0 R prod

theorem mergeLabels_idem (repo : String) (s0 R : List LabelRow) (prod : List LabelRow) :
    mergeLabels repo (s0 ++ R ++ R) (mergeLabels repo (s0 ++ R) prod) =
      mergeLabels repo (s0 ++ R) prod :=
  mergeKind_idem labelKey labelOrd (fun r => r.repo_name) repo s0 R prod

/-- C1.  Idempotence of load_pull_requests: running the loader a second
time over the same ingestion window with the same inputs (the same
repository, pull requests, embedding backend and collection timestamp)
leaves every production table exactly as the first run left it — same
rows and therefore same row counts — even though the second run appends
its rows to staging again, because the staging deduplication keeps the
same winner per natural key and the MERGE updates every matched row to
values it already holds. -/
theorem spec_C1_idempotent_load (backend : EmbedBackend) (repo : String)
    (prs : List PullRequest) (cachedAt : Nat) (db : WarehouseDB) :
    (loadPullRequests backend repo prs cachedAt
        (loadPullRequests backend repo prs cachedAt db)).prs =
      (loadPullRequests backend repo prs cachedAt db).prs ∧
    (loadPullRequests backend repo prs cachedAt
        (loadPullRequests backend repo prs cachedAt db)).reviews =
      (loadPullRequests backend repo prs cachedAt db).reviews ∧
    (loadPullRequests backend repo prs cachedAt
        (loadPullRequests backend repo prs cachedAt db)).files =
      (loadPullRequests backend repo prs cachedAt db).files ∧
    (loadPullRequests backend repo prs cachedAt
        (loadPullRequests backend repo prs cachedAt db)).labels =
      (loadPullRequests backend repo prs cachedAt db).labels ∧
    getTableRowCounts (loadPullRequests backend repo prs cachedAt
        (loadPullRequests backend repo prs cachedAt db)) =
      getTableRowCounts (loadPullRequests backend repo prs cachedAt db) := by
  by_cases hne : prs.isEmpty
  · simp [loadPullRequests, loadPullRequestsF, hne]
  · rw [Bool.not_eq_true] at hne
    unfold loadPullRequests
    rw [loadPullRequests_clean_eq backend repo prs cachedAt db hne]
    rw [loadPullRequests_clean_eq backend repo prs cachedAt _ hne]
    simp only [getTableRowCounts]
    have hprs : mergePrs repo (db.stagingPrs ++ prRowsOf repo prs backend cachedAt ++
          prRowsOf repo prs backend cachedAt)
        (mergePrs repo (db.stagingPrs ++ prRowsOf repo prs backend cachedAt) db.prs) =
        mergePrs repo (db.stagingPrs ++ prRowsOf repo prs backend cachedAt) db.prs :=
      mergePrs_idem repo db.stagingPrs (prRowsOf repo prs backend cachedAt) db.prs
    have hrv : (if (reviewRowsOf repo prs backend cachedAt).isEmpty then
          (if (reviewRowsOf repo prs backend cachedAt).isEmpty then db.reviews
            else mergeReviews repo
              (db.stagingReviews ++ reviewRowsOf repo prs backend cachedAt) db.reviews)
        else mergeReviews repo
          ((if (reviewRowsOf repo prs backend cachedAt).isEmpty then db.stagingReviews
            else db.stagingReviews ++ reviewRowsOf repo prs backend cachedAt) ++
            reviewRowsOf repo prs backend cachedAt)
          (if (reviewRowsOf repo prs backend cachedAt).isEmpty then db.reviews
            else mergeReviews repo
              (db.stagingReviews ++ reviewRowsOf repo prs backend cachedAt) db.reviews)) =
        (if (reviewRowsOf repo prs backend cachedAt).isEmpty then db.reviews
          else mergeReviews repo
            (db.stagingReviews ++ reviewRowsOf repo prs backend cachedAt) db.reviews) := by
      by_cases h : (reviewRowsOf repo prs backend cachedAt).isEmpty
      · simp [h]
      · simp only [h, if_false]
        exact mergeReviews_idem repo db.stagingReviews _ db.reviews
    have hfl : (if (fileRowsOf repo prs backend cachedAt).isEmpty then
          (if (fileRowsOf repo prs backend cachedAt).isEmpty then db.files
            else mergeFiles repo
              (db.stagingFiles ++ fileRowsOf repo prs backend cachedAt) db.files)
        else mergeFiles repo
          ((if (fileRowsOf repo prs backend cachedAt).isEmpty then db.stagingFiles
            else db.stagingFiles ++ fileRowsOf repo prs backend cachedAt) ++
            fileRowsOf repo prs backend cachedAt)
          (if (fileRowsOf repo prs backend cachedAt).isEmpty then db.files
            else mergeFiles repo
              (db.stagingFiles ++ fileRowsOf repo prs backend cachedAt) db.files)) =
        (if (fileRowsOf repo prs backend cachedAt).isEmpty then db.files
          else mergeFiles repo
            (db.stagingFiles ++ fileRowsOf repo prs backend cachedAt) db.files) := by
      by_cases h : (fileRowsOf repo prs backend cachedAt).isEmpty
      · simp [h]
      · simp only [h, if_false]
        exact mergeFiles_idem repo db.stagingFiles _ db.files
    have hlb : (if (labelRowsOf repo prs).isEmpty then
          (if (labelRowsOf repo prs).isEmpty then db.labels
            else mergeLabels repo (db.stagingLabels ++ labelRowsOf repo prs) db.labels)
        else mergeLabels repo
          ((if (labelRowsOf repo prs).isEmpty then db.stagingLabels
            else db.stagingLabels ++ labelRowsOf repo prs) ++ labelRowsOf repo prs)
          (if (labelRowsOf repo prs).isEmpty then db.labels
            else mergeLabels repo (db.stagingLabels ++ labelRowsOf repo prs) db.labels)) =
        (if (labelRowsOf repo prs).isEmpty then db.labels
          else mergeLabels repo (db.stagingLabels ++ labelRowsOf repo prs) db.labels) := by
      by_cases h : (labelRowsOf repo prs).isEmpty
      · simp [h]
      · simp only [h, if_false]
        exact mergeLabels_idem repo db.stagingLabels _ db.labels
    refine ⟨hprs, hrv, hfl, hlb, ?_⟩
    rw [hprs, hrv, hfl, hlb]

/-! ### Claim theorems: per-kind failure isolation -/

theorem fileRowsOf_length (repo : String) (prs : List PullRequest)
    (backend : EmbedBackend) (cachedAt : Nat) :
    (fileRowsOf repo prs backend cachedAt).length = (filePairs prs).length := by
  unfold fileRowsOf
  rw [List.length_map, List.length_zip,
    genBatchEmb_length_aux backend 5 (by omega) _ _ (le_refl _)]
  simp

theorem isEmpty_false_of_length_ne_zero {α : Type} (l : List α) (h : l.length ≠ 0) :
    l.isEmpty = false := by
  cases l with
  | nil => simp at h
  | cons x xs => rfl

theorem loadPullRequestsF_file_fail_eq (failStage failMerge : Kind → Bool)
    (backend : EmbedBackend) (repo : String) (prs : List PullRequest)
    (cachedAt : Nat) (db : WarehouseDB)
    (hne : prs.isEmpty = false)
    (h1 : failStage Kind.pr = false) (h2 : failMerge Kind.pr = false)
    (h3 : failStage Kind.review = false) (h4 : failMerge Kind.review = false)
    (h5 : failStage Kind.file = true ∨ failMerge Kind.file = true)
    (hfr : (fileRowsOf repo prs backend cachedAt).isEmpty = false) :
    loadPullRequestsF failStage failMerge backend repo prs cachedAt db =
      ({ prs := mergePrs repo (db.stagingPrs ++ prRowsOf repo prs backend cachedAt) db.prs,
         reviews := if (reviewRowsOf repo prs backend cachedAt).isEmpty then db.reviews
           else mergeReviews repo
             (db.stagingReviews ++ reviewRowsOf repo prs backend cachedAt) db.reviews,
         files := db.files,
         labels := db.labels,
         stagingPrs := db.stagingPrs ++ prRowsOf repo prs backend cachedAt,
         stagingReviews := if (reviewRowsOf repo prs backend cachedAt).isEmpty
           then db.stagingReviews
           else db.stagingReviews ++ reviewRowsOf repo prs backend cachedAt,
         stagingFiles := if failStage Kind.file then db.stagingFiles
           else db.stagingFiles ++ fileRowsOf repo prs backend cachedAt,
         stagingLabels := db.stagingLabels }, some Kind.file) := by
  unfold loadPullRequestsF runKind
  by_cases h6 : (reviewRowsOf repo prs backend cachedAt).isEmpty <;>
    by_cases h7 : failStage Kind.file = true
  · simp [hne, h1, h2, h3, h4, h6, h7, hfr]
  · rcases h5 with h5 | h5
    · exact absurd h5 h7
    · simp [hne, h1, h2, h3, h4, h6, h7, h5, hfr]
  · simp [hne, h1, h2, h3, h4, h6, h7, hfr]
  · rcases h5 with h5 | h5
    · exact absurd h5 h7
    · simp [hne, h1, h2, h3, h4, h6, h7, h5, hfr]

/-- C8.  Record-kind failure isolation: when the file kind's staging
append or reconciliation fails inside load_pull_requests, the call
aborts at that kind (the exception surfaces naming the file kind), the
parent and review kinds committed earlier in the same call hold exactly
the state the failure-free run would give them — visible in the row
counts — and the production file and label tables are untouched (the
label kind, which runs after files, never starts). -/
theorem spec_C8_failure_isolation (failStage failMerge : Kind → Bool)
    (backend : EmbedBackend) (repo : String) (prs : List PullRequest)
    (cachedAt : Nat) (db : WarehouseDB)
    (h1 : failStage Kind.pr = false) (h2 : failMerge Kind.pr = false)
    (h3 : failStage Kind.review = false) (h4 : failMerge Kind.review = false)
    (h5 : failStage Kind.file = true ∨ failMerge Kind.file = true)
    (hfr : (fileRowsOf repo prs backend cachedAt).isEmpty = false) :
    (loadPullRequestsF failStage failMerge backend repo prs cachedAt db).2 =
        some Kind.file ∧
      (loadPullRequestsF failStage failMerge backend repo prs cachedAt db).1.prs =
        (loadPullRequestsF (fun _ => false) (fun _ => false) backend repo prs
          cachedAt db).1.prs ∧
      (loadPullRequestsF failStage failMerge backend repo prs cachedAt db).1.reviews =
        (loadPullRequestsF (fun _ => false) (fun _ => false) backend repo prs
          cachedAt db).1.reviews ∧
      (loadPullRequestsF failStage failMerge backend repo prs cachedAt db).1.files =
        db.files ∧
      (loadPullRequestsF failStage failMerge backend repo prs cachedAt db).1.labels =
        db.labels ∧
      getTableRowCounts (loadPullRequestsF failStage failMerge backend repo prs
          cachedAt db).1 =
        ((loadPullRequestsF (fun _ => false) (fun _ => false) backend repo prs
            cachedAt db).1.prs.length,
          (loadPullRequestsF (fun _ => false) (fun _ => false) backend repo prs
            cachedAt db).1.reviews.length,
          db.files.length, db.labels.length) := by
  have hne : prs.isEmpty = false := by
    cases hp : prs with
    | nil =>
      rw [hp] at hfr
      exact absurd hfr (by simp [fileRowsOf, filePairs])
    | cons p ps => rfl
  rw [loadPullRequestsF_file_fail_eq failStage failMerge backend repo prs cachedAt db
    hne h1 h2 h3 h4 h5 hfr]
  rw [loadPullRequests_clean_eq backend repo prs cachedAt db hne]
  simp [getTableRowCounts]

/-- The single changed file of the C8 witness pull request. -/
def fsWitness : FileStat :=
  { filename := "a.py", additions := 1, deletions := 0, changes := 1,
    status := "modified", patch := some "p" }

/-- A one-file pull request used by the C8 witness. -/
def prWitness : PullRequest :=
  { number := 1, title := "t", body := some "b", state := .MERGED,
    created_at := 1, updated_at := 2, merged_at := some 3, closed_at := some 3,
    author := { login := "a", name := none, avatar_url := none, html_url := none },
    html_url := "u", base_branch := "main", head_branch := "f",
    labels := [], reviews := [],
    file_stats := [fsWitness],
    requested_reviewers := [], assignees := [],
    additions := 1, deletions := 0, changed_files := 1, draft := false,
    mergeable := none }

/-- The empty warehouse used by the C8 witness. -/
def emptyDB : WarehouseDB :=
  { prs := [], reviews := [], files := [], labels := [],
    stagingPrs := [], stagingReviews := [], stagingFiles := [], stagingLabels := [] }

/-- A failure injection that fails only the file kind's staging load. -/
def failFileStage : Kind → Bool
  | .file => true
  | _ => false

/-- A failure injection that fails nothing. -/
def failNone : Kind → Bool := fun _ => false

theorem witness_c8_file_rows_nonempty :
    (fileRowsOf "o/r" [prWitness] embBackend0 7).isEmpty = false :=
  isEmpty_false_of_length_ne_zero _
    (by rw [fileRowsOf_length]; decide)

/-- Witness for C8: failing the file kind's staging load over one
single-file PR into an empty warehouse surfaces the file-kind error
while the pr and review kinds match the failure-free run and the file
and label tables stay empty. -/
theorem spec_C8_failure_isolation_witness :
    (failFileStage Kind.pr = false ∧ failNone Kind.pr = false ∧
      failFileStage Kind.review = false ∧ failNone Kind.review = false ∧
      (failFileStage Kind.file = true ∨ failNone Kind.file = true) ∧
      (fileRowsOf "o/r" [prWitness] embBackend0 7).isEmpty = false) ∧
    ((loadPullRequestsF failFileStage failNone embBackend0 "o/r" [prWitness] 7
        emptyDB).2 = some Kind.file ∧
      (loadPullRequestsF failFileStage failNone embBackend0 "o/r" [prWitness] 7
          emptyDB).1.prs =
        (loadPullRequestsF (fun _ => false) (fun _ => false) embBackend0 "o/r"
          [prWitness] 7 emptyDB).1.prs ∧
      (loadPullRequestsF failFileStage failNone embBackend0 "o/r" [prWitness] 7
          emptyDB).1.reviews =
        (loadPullRequestsF (fun _ => false) (fun _ => false) embBackend0 "o/r"
          [prWitness] 7 emptyDB).1.reviews ∧
      (loadPullRequestsF failFileStage failNone embBackend0 "o/r" [prWitness] 7
          emptyDB).1.files = emptyDB.files ∧
      (loadPullRequestsF failFileStage failNone embBackend0 "o/r" [prWitness] 7
          emptyDB).1.labels = emptyDB.labels ∧
      getTableRowCounts (loadPullRequestsF failFileStage failNone embBackend0 "o/r"
          [prWitness] 7 emptyDB).1 =
        ((loadPullRequestsF (fun _ => false) (fun _ => false) embBackend0 "o/r"
            [prWitness] 7 emptyDB).1.prs.length,
          (loadPullRequestsF (fun _ => false) (fun _ => false) embBackend0 "o/r"
            [prWitness] 7 emptyDB).1.reviews.length,
          emptyDB.files.length, emptyDB.labels.length)) :=
  ⟨⟨rfl, rfl, rfl, rfl, Or.inl rfl, witness_c8_file_rows_nonempty⟩,
    spec_C8_failure_isolation failFileStage failNone embBackend0 "o/r" [prWitness] 7
      emptyDB rfl rfl rfl rfl (Or.inl rfl) witness_c8_file_rows_nonempty⟩

end GithubDelivery
